import Mathlib

/-!
# btc-keygen: a verification development for `cmd/main.go`

The program is a thin command-line layer over the `btcd` libraries: it obtains a
secp256k1 private key (fresh, or decoded from a WIF string), derives the public
key, and encodes one of four address kinds.

Layout of this file:

* byte strings, `math/big` conversions, hexadecimal printing;
* SHA-256, RIPEMD-160, Base58, Bech32, secp256k1 (the primitives that the
  program calls in `btcec`, `btcutil`, `chaincfg`, `txscript`; they are modelled
  by their input/output behaviour, on lists of bytes), and the address decoder
  of `btcutil`;
* `generateKeyPair`, `importPrivateKey` and `main`, transcribed from
  `cmd/main.go` statement by statement;
* the theorems.

A byte is a natural number below 256; a byte string is a list of them.  What the
program writes is recorded as a list of events, and process termination as an
exit code.
-/

set_option autoImplicit false

namespace BtcKeygen

/-- Results `(value, err)` of the Go functions are `Except` values; they are
compared when a run is evaluated. -/
instance instDecidableEqExcept {ε α : Type} [DecidableEq ε] [DecidableEq α] :
    DecidableEq (Except ε α)
  | .ok a, .ok b => if h : a = b then isTrue (by rw [h]) else isFalse (by intro h2; cases h2; exact h rfl)
  | .error a, .error b =>
    if h : a = b then isTrue (by rw [h]) else isFalse (by intro h2; cases h2; exact h rfl)
  | .ok _, .error _ => isFalse (by intro h; cases h)
  | .error _, .ok _ => isFalse (by intro h; cases h)

/-! ## Byte strings and big integers -/

/-- Byte strings: every element is meant to be below 256. -/
abbrev Bytes := List Nat

/-- Every element of the byte string is a byte. -/
def IsBytes (b : Bytes) : Prop := ∀ x ∈ b, x < 256

/-- The digits of `n` in base `base`, most significant first, put in front of
`acc`; none for zero. `fuel` bounds the number of digits produced. -/
def digitsAux (base : Nat) : Nat → Nat → List Nat → List Nat
  | 0, _, acc => acc
  | fuel + 1, n, acc =>
    if n = 0 then acc else digitsAux base fuel (n / base) (n % base :: acc)

/-- Go `(*big.Int).Bytes` on a non-negative integer: the big-endian byte slice
of the value with no leading zero bytes (the empty slice for zero). -/
def bigIntBytes (n : Nat) : Bytes := digitsAux 256 n n []

/-- Go `(*big.Int).SetBytes`: the value of a big-endian byte string. -/
def bytesToNat (b : Bytes) : Nat := b.foldl (fun acc x => acc * 256 + x) 0

/-- The fixed-width big-endian encoding of `n` on `len` bytes (the low
`8 * len` bits), as written by `PutBytesUnchecked` and `paddedAppend`. -/
def fixedBytes : Nat → Nat → Bytes
  | 0, _ => []
  | len + 1, n => (n / 256 ^ len) % 256 :: fixedBytes len n

/-- One lower-case hexadecimal digit. -/
def hexDigit (n : Nat) : Char := "0123456789abcdef".data.getD n '0'

/-- Go `fmt.Sprintf("%x", b)` for a byte slice: two lower-case digits a byte. -/
def hexString (b : Bytes) : String :=
  String.mk (b.flatMap fun x => [hexDigit (x / 16 % 16), hexDigit (x % 16)])

/-! ## SHA-256 -/

namespace Sha256

/-- Rotate a 32-bit word right. -/
def rotr (x n : Nat) : Nat := ((x >>> n) ||| (x <<< (32 - n))) % 4294967296

/-- The round constants (the fractional parts of the cube roots of the first 64
primes), in decimal. -/
def K : List Nat := [
  1116352408, 1899447441, 3049323471, 3921009573, 961987163, 1508970993,
  2453635748, 2870763221, 3624381080, 310598401, 607225278, 1426881987,
  1925078388, 2162078206, 2614888103, 3248222580, 3835390401, 4022224774,
  264347078, 604807628, 770255983, 1249150122, 1555081692, 1996064986,
  2554220882, 2821834349, 2952996808, 3210313671, 3336571891, 3584528711,
  113926993, 338241895, 666307205, 773529912, 1294757372, 1396182291,
  1695183700, 1986661051, 2177026350, 2456956037, 2730485921, 2820302411,
  3259730800, 3345764771, 3516065817, 3600352804, 4094571909, 275423344,
  430227734, 506948616, 659060556, 883997877, 958139571, 1322822218,
  1537002063, 1747873779, 1955562222, 2024104815, 2227730452, 2361852424,
  2428436474, 2756734187, 3204031479, 3329325298]

/-- A 32-bit word as four big-endian bytes. -/
def be32 (w : Nat) : Bytes := [(w >>> 24) % 256, (w >>> 16) % 256, (w >>> 8) % 256, w % 256]

/-- A 64-bit length as eight big-endian bytes. -/
def be64 (n : Nat) : Bytes := be32 ((n >>> 32) % 4294967296) ++ be32 (n % 4294967296)

/-- Group bytes into big-endian 32-bit words. -/
def words : Bytes → List Nat
  | a :: b :: c :: d :: rest => (a * 16777216 + b * 65536 + c * 256 + d) :: words rest
  | _ => []

/-- Extend the message schedule by `n` words; the list holds the words so far,
most recent first. -/
def schedule : Nat → List Nat → List Nat
  | 0, ws => ws
  | n + 1, ws =>
    match ws with
    | _ :: w2 :: _ :: _ :: _ :: _ :: w7 :: _ :: _ :: _ :: _ :: _ :: _ :: _ :: w15 :: w16 :: _ =>
      let s0 := rotr w15 7 ^^^ rotr w15 18 ^^^ (w15 >>> 3)
      let s1 := rotr w2 17 ^^^ rotr w2 19 ^^^ (w2 >>> 10)
      schedule n (((w16 + s0 + w7 + s1) % 4294967296) :: ws)
    | _ => ws

/-- The eight working variables. -/
structure State where
  a : Nat
  b : Nat
  c : Nat
  d : Nat
  e : Nat
  f : Nat
  g : Nat
  h : Nat

/-- One round, on the pair (round constant, schedule word). -/
def round (s : State) (kw : Nat × Nat) : State :=
  let S1 := rotr s.e 6 ^^^ rotr s.e 11 ^^^ rotr s.e 25
  let ch := (s.e &&& s.f) ^^^ ((4294967295 - s.e) &&& s.g)
  let t1 := (s.h + S1 + ch + kw.1 + kw.2) % 4294967296
  let S0 := rotr s.a 2 ^^^ rotr s.a 13 ^^^ rotr s.a 22
  let maj := (s.a &&& s.b) ^^^ (s.a &&& s.c) ^^^ (s.b &&& s.c)
  let t2 := (S0 + maj) % 4294967296
  ⟨(t1 + t2) % 4294967296, s.a, s.b, s.c, (s.d + t1) % 4294967296, s.e, s.f, s.g⟩

/-- The compression function on one 64-byte block. -/
def compress (s : State) (block : Bytes) : State :=
  let w := (schedule 48 (words block).reverse).reverse
  let r := (K.zip w).foldl round s
  ⟨(s.a + r.a) % 4294967296, (s.b + r.b) % 4294967296, (s.c + r.c) % 4294967296,
   (s.d + r.d) % 4294967296, (s.e + r.e) % 4294967296, (s.f + r.f) % 4294967296,
   (s.g + r.g) % 4294967296, (s.h + r.h) % 4294967296⟩

/-- Message padding: `0x80`, zeros up to 56 mod 64, the bit length. -/
def pad (m : Bytes) : Bytes :=
  m ++ [0x80] ++ List.replicate ((119 - m.length % 64) % 64) 0 ++ be64 (8 * m.length)

/-- Absorb `n` blocks. -/
def blocks : Nat → State → Bytes → State
  | 0, s, _ => s
  | n + 1, s, m => blocks n (compress s (m.take 64)) (m.drop 64)

/-- The SHA-256 digest of a byte string (32 bytes). -/
def sum (m : Bytes) : Bytes :=
  let p := pad m
  let s := blocks (p.length / 64)
    ⟨1779033703, 3144134277, 1013904242, 2773480762, 1359893119, 2600822924, 528734635, 1541459225⟩ p
  be32 s.a ++ be32 s.b ++ be32 s.c ++ be32 s.d ++ be32 s.e ++ be32 s.f ++ be32 s.g ++ be32 s.h

end Sha256

/-! ## RIPEMD-160 -/

namespace Ripemd160

/-- Rotate a 32-bit word left. -/
def rotl (x n : Nat) : Nat := ((x <<< n) ||| (x >>> (32 - n))) % 4294967296

/-- Bitwise complement of a 32-bit word. -/
def inv (x : Nat) : Nat := 4294967295 - x

/-- The round function of round `j / 16`. -/
def f (j x y z : Nat) : Nat :=
  if j < 16 then x ^^^ y ^^^ z
  else if j < 32 then (x &&& y) ||| (inv x &&& z)
  else if j < 48 then (x ||| inv y) ^^^ z
  else if j < 64 then (x &&& z) ||| (y &&& inv z)
  else x ^^^ (y ||| inv z)

/-- Added constants, left line. -/
def KL (j : Nat) : Nat :=
  if j < 16 then 0 else if j < 32 then 0x5A827999 else if j < 48 then 0x6ED9EBA1
  else if j < 64 then 0x8F1BBCDC else 0xA953FD4E

/-- Added constants, right line. -/
def KR (j : Nat) : Nat :=
  if j < 16 then 0x50A28BE6 else if j < 32 then 0x5C4DD124 else if j < 48 then 0x6D703EF3
  else if j < 64 then 0x7A6D76E9 else 0

/-- Message word selection, left line. -/
def RL : List Nat := [
  0, 1, 2, 3, 4, 5, 6, 7, 8, 9, 10, 11, 12, 13, 14, 15,
  7, 4, 13, 1, 10, 6, 15, 3, 12, 0, 9, 5, 2, 14, 11, 8,
  3, 10, 14, 4, 9, 15, 8, 1, 2, 7, 0, 6, 13, 11, 5, 12,
  1, 9, 11, 10, 0, 8, 12, 4, 13, 3, 7, 15, 14, 5, 6, 2,
  4, 0, 5, 9, 7, 12, 2, 10, 14, 1, 3, 8, 11, 6, 15, 13]

/-- Message word selection, right line. -/
def RR : List Nat := [
  5, 14, 7, 0, 9, 2, 11, 4, 13, 6, 15, 8, 1, 10, 3, 12,
  6, 11, 3, 7, 0, 13, 5, 10, 14, 15, 8, 12, 4, 9, 1, 2,
  15, 5, 1, 3, 7, 14, 6, 9, 11, 8, 12, 2, 10, 0, 4, 13,
  8, 6, 4, 1, 3, 11, 15, 0, 5, 12, 2, 13, 9, 7, 10, 14,
  12, 15, 10, 4, 1, 5, 8, 7, 6, 2, 13, 14, 0, 3, 9, 11]

/-- Rotation amounts, left line. -/
def SL : List Nat := [
  11, 14, 15, 12, 5, 8, 7, 9, 11, 13, 14, 15, 6, 7, 9, 8,
  7, 6, 8, 13, 11, 9, 7, 15, 7, 12, 15, 9, 11, 7, 13, 12,
  11, 13, 6, 7, 14, 9, 13, 15, 14, 8, 13, 6, 5, 12, 7, 5,
  11, 12, 14, 15, 14, 15, 9, 8, 9, 14, 5, 6, 8, 6, 5, 12,
  9, 15, 5, 11, 6, 8, 13, 12, 5, 12, 13, 14, 11, 8, 5, 6]

/-- Rotation amounts, right line. -/
def SR : List Nat := [
  8, 9, 9, 11, 13, 15, 15, 5, 7, 7, 8, 11, 14, 14, 12, 6,
  9, 13, 15, 7, 12, 8, 9, 11, 7, 7, 12, 7, 6, 15, 13, 11,
  9, 7, 15, 11, 8, 6, 6, 14, 12, 13, 5, 14, 13, 13, 7, 5,
  15, 5, 8, 11, 14, 14, 6, 14, 6, 9, 12, 9, 12, 5, 15, 8,
  8, 5, 12, 9, 12, 5, 14, 6, 8, 13, 6, 5, 15, 13, 11, 11]

/-- The five chaining words. -/
structure State where
  a : Nat
  b : Nat
  c : Nat
  d : Nat
  e : Nat

/-- A 32-bit word as four little-endian bytes. -/
def le32 (w : Nat) : Bytes := [w % 256, (w >>> 8) % 256, (w >>> 16) % 256, (w >>> 24) % 256]

/-- Group bytes into little-endian 32-bit words. -/
def words : Bytes → List Nat
  | a :: b :: c :: d :: rest => (a + b * 256 + c * 65536 + d * 16777216) :: words rest
  | _ => []

/-- One step of a line: `fj` is the round index used for the function, `k` the
added constant, `r` the message word index, `s` the rotation. -/
def step (x : List Nat) (st : State) (fj k r s : Nat) : State :=
  let t := (rotl ((st.a + f fj st.b st.c st.d + x.getD r 0 + k) % 4294967296) s + st.e) % 4294967296
  ⟨st.e, t, st.b, rotl st.c 10, st.d⟩

/-- The left line: steps `j = 0 .. 79`. -/
def left (x : List Nat) (st : State) : State :=
  (List.range 80).foldl (fun s j => step x s j (KL j) (RL.getD j 0) (SL.getD j 0)) st

/-- The right line: steps `j = 0 .. 79`, with the round functions in reverse order. -/
def right (x : List Nat) (st : State) : State :=
  (List.range 80).foldl (fun s j => step x s (79 - j) (KR j) (RR.getD j 0) (SR.getD j 0)) st

/-- The compression function on one 64-byte block. -/
def compress (h : State) (block : Bytes) : State :=
  let x := words block
  let l := left x h
  let r := right x h
  ⟨(h.b + l.c + r.d) % 4294967296, (h.c + l.d + r.e) % 4294967296, (h.d + l.e + r.a) % 4294967296,
   (h.e + l.a + r.b) % 4294967296, (h.a + l.b + r.c) % 4294967296⟩

/-- Message padding: `0x80`, zeros up to 56 mod 64, the bit length little-endian. -/
def pad (m : Bytes) : Bytes :=
  m ++ [0x80] ++ List.replicate ((119 - m.length % 64) % 64) 0
    ++ le32 ((8 * m.length) % 4294967296) ++ le32 (((8 * m.length) >>> 32) % 4294967296)

/-- Absorb `n` blocks. -/
def blocks : Nat → State → Bytes → State
  | 0, s, _ => s
  | n + 1, s, m => blocks n (compress s (m.take 64)) (m.drop 64)

/-- The RIPEMD-160 digest of a byte string (20 bytes). -/
def sum (m : Bytes) : Bytes :=
  let p := pad m
  let s := blocks (p.length / 64) ⟨0x67452301, 0xEFCDAB89, 0x98BADCFE, 0x10325476, 0xC3D2E1F0⟩ p
  le32 s.a ++ le32 s.b ++ le32 s.c ++ le32 s.d ++ le32 s.e

end Ripemd160

/-! ## Base58 (`btcutil/base58`) -/

namespace Base58

/-- The Bitcoin Base58 alphabet. -/
def alphabet : List Char := "123456789ABCDEFGHJKLMNPQRSTUVWXYZabcdefghijkmnopqrstuvwxyz".data

/-- The number of leading elements of a list equal to `z`. -/
def leading {α : Type} [DecidableEq α] (z : α) : List α → Nat
  | [] => 0
  | x :: xs => if x = z then leading z xs + 1 else 0

/-- `base58.Encode`: the base-58 digits of the big-endian value of `b`, after
one `1` for every leading zero byte. -/
def Encode (b : Bytes) : String :=
  String.mk (List.replicate (leading 0 b) '1'
    ++ (digitsAux 58 (bytesToNat b) (bytesToNat b) []).map fun d => alphabet.getD d '1')

/-- `base58.Decode`: the empty byte string if some character is not in the
alphabet; otherwise one zero byte for every leading `1`, and the big-endian
bytes of the base-58 value of the characters. -/
def Decode (s : String) : Bytes :=
  if s.data.all (fun c => decide (c ∈ alphabet)) then
    List.replicate (leading '1' s.data) 0
      ++ bigIntBytes ((s.data.map alphabet.indexOf).foldl (fun acc d => acc * 58 + d) 0)
  else []

/-- `base58.checksum`: the first four bytes of the double SHA-256. -/
def checksum (input : Bytes) : Bytes := (Sha256.sum (Sha256.sum input)).take 4

/-- `base58.CheckEncode`: version byte, payload, checksum, in Base58. -/
def CheckEncode (input : Bytes) (version : Nat) : String :=
  Encode (version :: input ++ checksum (version :: input))

end Base58

/-! ## Bech32 and Bech32m (`btcutil/bech32`) -/

namespace Bech32

/-- The Bech32 character set. -/
def charset : List Char := "qpzry9x8gf2tvdw0s3jn54khce6mua7l".data

/-- The generator coefficients of the checksum. -/
def gen : List Nat := [0x3b6a57b2, 0x26508e6d, 0x1ea119fa, 0x3d4233dd, 0x2a1462b3]

/-- One step of the checksum on the 5-bit value `v`. -/
def polymodStep (chk v : Nat) : Nat :=
  let b := chk >>> 25
  let chk1 := ((chk &&& 0x1ffffff) <<< 5) ^^^ v
  (List.range 5).foldl (fun c i => if (b >>> i) % 2 = 1 then c ^^^ gen.getD i 0 else c) chk1

/-- The checksum polynomial of a list of 5-bit values. -/
def polymod (values : List Nat) : Nat := values.foldl polymodStep 1

/-- The human-readable part as it enters the checksum. -/
def hrpExpand (hrp : List Char) : List Nat :=
  hrp.map (fun c => c.toNat >>> 5) ++ [0] ++ hrp.map (fun c => c.toNat &&& 31)

/-- The six checksum values; `const` is 1 for Bech32 and `0x2bc830a3` for Bech32m. -/
def createChecksum (const : Nat) (hrp : List Char) (data : List Nat) : List Nat :=
  let pm := polymod (hrpExpand hrp ++ data ++ [0, 0, 0, 0, 0, 0]) ^^^ const
  (List.range 6).map fun i => (pm >>> (5 * (5 - i))) &&& 31

/-- Regroup bytes into 5-bit values with padding (`ConvertBits(data, 8, 5, true)`):
`acc` holds `bits` pending bits. -/
def convert8to5 : Bytes → Nat → Nat → List Nat
  | [], acc, bits => if bits = 0 then [] else [(acc <<< (5 - bits)) &&& 31]
  | x :: xs, acc, bits =>
    let acc1 := (acc <<< 8) ||| x
    let bits1 := bits + 8
    if bits1 < 10 then
      ((acc1 >>> (bits1 - 5)) &&& 31) :: convert8to5 xs (acc1 &&& (2 ^ (bits1 - 5) - 1)) (bits1 - 5)
    else
      ((acc1 >>> (bits1 - 5)) &&& 31) :: ((acc1 >>> (bits1 - 10)) &&& 31)
        :: convert8to5 xs (acc1 &&& (2 ^ (bits1 - 10) - 1)) (bits1 - 10)

/-- `bech32.Encode` / `bech32.EncodeM` on 5-bit data: lower-cased hrp, `1`, the
data characters, the checksum characters. -/
def encode (const : Nat) (hrp : String) (data : List Nat) : String :=
  let h := hrp.data.map Char.toLower
  String.mk (h ++ ['1'] ++ (data ++ createChecksum const h data).map fun d => charset.getD d 'q')

end Bech32

/-! ## secp256k1 (`btcec/v2`) -/

namespace Secp256k1

/-- The field prime `2^256 - 2^32 - 977`. -/
def P : Nat := 0xFFFFFFFFFFFFFFFFFFFFFFFFFFFFFFFFFFFFFFFFFFFFFFFFFFFFFFFEFFFFFC2F

/-- The group order. -/
def N : Nat := 0xFFFFFFFFFFFFFFFFFFFFFFFFFFFFFFFEBAAEDCE6AF48A03BBFD25E8CD0364141

/-- The base point, x. -/
def Gx : Nat := 0x79BE667EF9DCBBAC55A06295CE870B07029BFCDB2DCE28D959F2815B16F81798

/-- The base point, y. -/
def Gy : Nat := 0x483ADA7726A3C4655DA4FBFC0E1108A8FD17B448A68554199C47D08FFB10D4B8

/-- Modular exponentiation `b ^ e mod P` by squaring, on at most `fuel` bits of `e`. -/
def powMod : Nat → Nat → Nat → Nat
  | 0, _, _ => 1
  | fuel + 1, b, e =>
    if e = 0 then 1
    else
      let h := powMod fuel (b * b % P) (e / 2)
      if e % 2 = 1 then b * h % P else h

/-- The inverse in the field (Fermat). -/
def invMod (a : Nat) : Nat := powMod 256 (a % P) (P - 2)

/-- A point in Jacobian coordinates `(X, Y, Z)`, standing for the affine point
`(X / Z^2, Y / Z^3)`; `Z = 0` is the point at infinity. -/
structure Jacobian where
  X : Nat
  Y : Nat
  Z : Nat

/-- Point doubling on `y^2 = x^3 + 7`. -/
def double (p : Jacobian) : Jacobian :=
  if p.Z = 0 ∨ p.Y = 0 then ⟨0, 1, 0⟩
  else
    let a := p.X * p.X % P
    let b := p.Y * p.Y % P
    let c := b * b % P
    let d := 2 * ((p.X + b) * (p.X + b) + (P - a) + (P - c)) % P
    let e := 3 * a % P
    let x3 := (e * e + 2 * (P - d)) % P
    ⟨x3, (e * (d + (P - x3)) + 8 * (P - c)) % P, 2 * p.Y * p.Z % P⟩

/-- Point addition. -/
def add (p q : Jacobian) : Jacobian :=
  if p.Z = 0 then q
  else if q.Z = 0 then p
  else
    let z1z1 := p.Z * p.Z % P
    let z2z2 := q.Z * q.Z % P
    let u1 := p.X * z2z2 % P
    let u2 := q.X * z1z1 % P
    let s1 := p.Y * q.Z % P * z2z2 % P
    let s2 := q.Y * p.Z % P * z1z1 % P
    if u1 = u2 then
      if s1 = s2 then double p else ⟨0, 1, 0⟩
    else
      let h := (u2 + (P - u1)) % P
      let r := (s2 + (P - s1)) % P
      let h2 := h * h % P
      let h3 := h * h2 % P
      let v := u1 * h2 % P
      let x3 := (r * r + (P - h3) + 2 * (P - v)) % P
      ⟨x3, (r * (v + (P - x3)) + (P - s1 * h3 % P)) % P, h * p.Z % P * q.Z % P⟩

/-- Double-and-add on at most `fuel` bits of `k`, least significant first. -/
def mulAux : Nat → Nat → Jacobian → Jacobian → Jacobian
  | 0, _, _, acc => acc
  | fuel + 1, k, p, acc =>
    if k = 0 then acc
    else mulAux fuel (k / 2) (double p) (if k % 2 = 1 then add acc p else acc)

/-- The affine coordinates of a Jacobian point; `none` for the point at infinity. -/
def toAffine (p : Jacobian) : Option (Nat × Nat) :=
  if p.Z = 0 then none
  else
    let zi := invMod p.Z
    let zi2 := zi * zi % P
    some (p.X * zi2 % P, p.Y * zi2 % P * zi % P)

/-- The multiple `k * G` of the base point, in affine coordinates. -/
def scalarBaseMult (k : Nat) : Option (Nat × Nat) :=
  toAffine (mulAux 256 k ⟨Gx, Gy, 1⟩ ⟨0, 1, 0⟩)

end Secp256k1

/-- A `btcec.PrivateKey`: a scalar modulo the group order. -/
structure PrivateKey where
  Key : Nat
deriving DecidableEq

/-- A `btcec.PublicKey`: the affine coordinates of a point. -/
structure PublicKey where
  x : Nat
  y : Nat
deriving DecidableEq

/-- A private key as the generator returns it: a scalar in `[1, N - 1]`. -/
def PrivateKey.Valid (k : PrivateKey) : Prop := 0 < k.Key ∧ k.Key < Secp256k1.N

/-- A valid secp256k1 point: reduced coordinates on `y^2 = x^3 + 7`. -/
def PublicKey.IsOnCurve (p : PublicKey) : Prop :=
  p.x < Secp256k1.P ∧ p.y < Secp256k1.P ∧ p.y * p.y % Secp256k1.P = (p.x * p.x * p.x + 7) % Secp256k1.P

instance (k : PrivateKey) : Decidable k.Valid := by unfold PrivateKey.Valid; infer_instance

instance (p : PublicKey) : Decidable p.IsOnCurve := by unfold PublicKey.IsOnCurve; infer_instance

/-- `(*PrivateKey).PubKey`: the affine coordinates of `Key * G`; the point at
infinity (zero scalar) converts to affine coordinates `(0, 0)`. -/
def PrivateKey.PubKey (k : PrivateKey) : PublicKey :=
  match Secp256k1.scalarBaseMult k.Key with
  | none => ⟨0, 0⟩
  | some (x, y) => ⟨x, y⟩

/-- `btcec.PrivKeyFromBytes`: the big-endian value of the first 32 bytes,
reduced modulo the group order. -/
def PrivKeyFromBytes (pk : Bytes) : PrivateKey := ⟨bytesToNat (pk.take 32) % Secp256k1.N⟩

/-- `(*PrivateKey).Serialize`: the scalar on 32 big-endian bytes. -/
def PrivateKey.Serialize (k : PrivateKey) : Bytes := fixedBytes 32 k.Key

/-- `(*PublicKey).SerializeCompressed`: `0x02` (even y) or `0x03` (odd y), then
the x coordinate on 32 bytes. -/
def PublicKey.SerializeCompressed (p : PublicKey) : Bytes :=
  (if p.y % 2 = 1 then 0x03 else 0x02) :: fixedBytes 32 p.x

/-- `(*PublicKey).X`: the x coordinate as a `*big.Int`. -/
def PublicKey.X (p : PublicKey) : Nat := p.x

/-! ## Network parameters (`chaincfg`) -/

/-- The fields of `chaincfg.Params` that the program and its encoders read. -/
structure Params where
  Name : String
  PubKeyHashAddrID : Nat
  ScriptHashAddrID : Nat
  PrivateKeyID : Nat
  Bech32HRPSegwit : String
deriving DecidableEq

/-- `chaincfg.MainNetParams`. -/
def MainNetParams : Params :=
  { Name := "mainnet", PubKeyHashAddrID := 0x00, ScriptHashAddrID := 0x05,
    PrivateKeyID := 0x80, Bech32HRPSegwit := "bc" }

/-- `chaincfg.TestNet3Params`. -/
def TestNet3Params : Params :=
  { Name := "testnet3", PubKeyHashAddrID := 0x6f, ScriptHashAddrID := 0xc4,
    PrivateKeyID := 0xef, Bech32HRPSegwit := "tb" }

/-! ## Script building (`txscript`) -/

/-- `txscript.OP_0`. -/
def OP_0 : Nat := 0x00
/-- `txscript.OP_DATA_1`. -/
def OP_DATA_1 : Nat := 0x01
/-- `txscript.OP_PUSHDATA1`. -/
def OP_PUSHDATA1 : Nat := 0x4c
/-- `txscript.OP_PUSHDATA2`. -/
def OP_PUSHDATA2 : Nat := 0x4d
/-- `txscript.OP_PUSHDATA4`. -/
def OP_PUSHDATA4 : Nat := 0x4e
/-- `txscript.OP_1NEGATE`. -/
def OP_1NEGATE : Nat := 0x4f
/-- `txscript.OP_1`. -/
def OP_1 : Nat := 0x51
/-- `txscript.MaxScriptSize`. -/
def MaxScriptSize : Nat := 10000
/-- `txscript.MaxScriptElementSize`. -/
def MaxScriptElementSize : Nat := 520

/-- A `txscript.ScriptBuilder`: the script so far and the first error. -/
structure ScriptBuilder where
  script : Bytes
  err : Option String

/-- `txscript.NewScriptBuilder()`. -/
def NewScriptBuilder : ScriptBuilder := ⟨[], none⟩

/-- `(*ScriptBuilder).AddOp`. -/
def ScriptBuilder.AddOp (b : ScriptBuilder) (opcode : Nat) : ScriptBuilder :=
  if b.err.isSome then b
  else if b.script.length + 1 > MaxScriptSize then
    { b with err := some ("adding an opcode would exceed the maximum allowed canonical script "
        ++ "length of " ++ toString MaxScriptSize) }
  else { b with script := b.script ++ [opcode] }

/-- `txscript.canonicalDataSize`: the bytes a canonical push of `data` takes. -/
def canonicalDataSize (data : Bytes) : Nat :=
  let dataLen := data.length
  if dataLen = 0 then 1
  else if dataLen = 1 ∧ data.getD 0 0 ≤ 16 then 1
  else if dataLen = 1 ∧ data.getD 0 0 = 0x81 then 1
  else if dataLen < OP_PUSHDATA1 then 1 + dataLen
  else if dataLen ≤ 0xff then 2 + dataLen
  else if dataLen ≤ 0xffff then 3 + dataLen
  else 5 + dataLen

/-- `(*ScriptBuilder).addData`: the canonical push of `data`. -/
def ScriptBuilder.addData (b : ScriptBuilder) (data : Bytes) : ScriptBuilder :=
  let dataLen := data.length
  if dataLen = 0 ∨ (dataLen = 1 ∧ data.getD 0 0 = 0) then
    { b with script := b.script ++ [OP_0] }
  else if dataLen = 1 ∧ data.getD 0 0 ≤ 16 then
    { b with script := b.script ++ [(OP_1 - 1) + data.getD 0 0] }
  else if dataLen = 1 ∧ data.getD 0 0 = 0x81 then
    { b with script := b.script ++ [OP_1NEGATE] }
  else
    let pushOp : Bytes :=
      if dataLen < OP_PUSHDATA1 then [(OP_DATA_1 - 1) + dataLen]
      else if dataLen ≤ 0xff then [OP_PUSHDATA1, dataLen]
      else if dataLen ≤ 0xffff then [OP_PUSHDATA2, dataLen % 256, dataLen / 256 % 256]
      else [OP_PUSHDATA4, dataLen % 256, dataLen / 256 % 256, dataLen / 65536 % 256,
            dataLen / 16777216 % 256]
    { b with script := b.script ++ pushOp ++ data }

/-- `(*ScriptBuilder).AddData`. -/
def ScriptBuilder.AddData (b : ScriptBuilder) (data : Bytes) : ScriptBuilder :=
  if b.err.isSome then b
  else if b.script.length + canonicalDataSize data > MaxScriptSize then
    { b with err := some ("adding " ++ toString (canonicalDataSize data)
        ++ " bytes of data would exceed the maximum allowed canonical script length of "
        ++ toString MaxScriptSize) }
  else if data.length > MaxScriptElementSize then
    { b with err := some ("adding a data element of " ++ toString data.length
        ++ " bytes would exceed the maximum allowed script element size of "
        ++ toString MaxScriptElementSize) }
  else b.addData data

/-- `(*ScriptBuilder).Script`: the script and the error. -/
def ScriptBuilder.Script (b : ScriptBuilder) : Bytes × Option String := (b.script, b.err)

/-! ## Addresses and WIF (`btcutil`) -/

/-- `btcutil.Hash160`: RIPEMD-160 of SHA-256. -/
def Hash160 (buf : Bytes) : Bytes := Ripemd160.sum (Sha256.sum buf)

/-- The format of the key of a pay-to-pubkey address (`btcutil.PubKeyFormat`). -/
inductive PubKeyFormat
  | PKFUncompressed
  | PKFCompressed
  | PKFHybrid
deriving DecidableEq

/-- The address kinds of `btcutil`: the four that the program builds, and the
two others that `btcutil.DecodeAddress` can return. -/
inductive Address
  | AddressPubKeyHash (hash : Bytes) (netID : Nat)
  | AddressScriptHash (hash : Bytes) (netID : Nat)
  | AddressWitnessPubKeyHash (hrp : String) (witnessProgram : Bytes)
  | AddressTaproot (hrp : String) (witnessProgram : Bytes)
  | AddressWitnessScriptHash (hrp : String) (witnessProgram : Bytes)
  | AddressPubKey (pubKeyFormat : PubKeyFormat) (pubKey : PublicKey) (pubKeyHashID : Nat)
deriving DecidableEq

/-- Go `strings.ToLower` on the human-readable part. -/
def toLower (s : String) : String := String.mk (s.data.map Char.toLower)

/-- `btcutil.NewAddressPubKeyHash`: the hash must be 20 bytes. -/
def NewAddressPubKeyHash (pkHash : Bytes) (net : Params) : Except String Address :=
  if pkHash.length ≠ 20 then .error "pkHash must be 20 bytes"
  else .ok (.AddressPubKeyHash pkHash net.PubKeyHashAddrID)

/-- `btcutil.NewAddressScriptHash`: the address of the Hash160 of the
serialized script. -/
def NewAddressScriptHash (serializedScript : Bytes) (net : Params) : Except String Address :=
  let scriptHash := Hash160 serializedScript
  if scriptHash.length ≠ 20 then .error "scriptHash must be 20 bytes"
  else .ok (.AddressScriptHash scriptHash net.ScriptHashAddrID)

/-- `btcutil.NewAddressWitnessPubKeyHash`: the program must be 20 bytes. -/
def NewAddressWitnessPubKeyHash (witnessProg : Bytes) (net : Params) : Except String Address :=
  if witnessProg.length ≠ 20 then .error "witness program must be 20 bytes for p2wpkh"
  else .ok (.AddressWitnessPubKeyHash (toLower net.Bech32HRPSegwit) witnessProg)

/-- `btcutil.NewAddressTaproot`: the program must be 32 bytes. -/
def NewAddressTaproot (witnessProg : Bytes) (net : Params) : Except String Address :=
  if witnessProg.length ≠ 32 then .error "witness program must be 32 bytes for p2tr"
  else .ok (.AddressTaproot (toLower net.Bech32HRPSegwit) witnessProg)

/-- `btcutil.encodeSegWitAddress` for witness versions 0 (Bech32) and 1
(Bech32m): the version, then the program regrouped in 5-bit values.  The
library decodes the string it built again as a self-check; that check is not
part of this model. -/
def encodeSegWitAddress (hrp : String) (witnessVersion : Nat) (witnessProgram : Bytes) : String :=
  Bech32.encode (if witnessVersion = 0 then 1 else 0x2bc830a3) hrp
    (witnessVersion :: Bech32.convert8to5 witnessProgram 0 0)

/-- `(*AddressPubKey).serialize`: the key in the format of the address. -/
def serializePubKey (format : PubKeyFormat) (p : PublicKey) : Bytes :=
  match format with
  | .PKFUncompressed => 0x04 :: fixedBytes 32 p.x ++ fixedBytes 32 p.y
  | .PKFCompressed => p.SerializeCompressed
  | .PKFHybrid => (if p.y % 2 = 1 then 0x07 else 0x06) :: fixedBytes 32 p.x ++ fixedBytes 32 p.y

/-- `Address.EncodeAddress`. -/
def Address.EncodeAddress : Address → String
  | .AddressPubKeyHash hash netID => Base58.CheckEncode hash netID
  | .AddressScriptHash hash netID => Base58.CheckEncode hash netID
  | .AddressWitnessPubKeyHash hrp prog => encodeSegWitAddress hrp 0 prog
  | .AddressTaproot hrp prog => encodeSegWitAddress hrp 1 prog
  | .AddressWitnessScriptHash hrp prog => encodeSegWitAddress hrp 0 prog
  | .AddressPubKey format pubKey netID =>
    Base58.CheckEncode (Hash160 (serializePubKey format pubKey)) netID

/-- `Address.IsForNet`: whether the address belongs to the network. -/
def Address.IsForNet : Address → Params → Bool
  | .AddressPubKeyHash _ netID, net => netID == net.PubKeyHashAddrID
  | .AddressScriptHash _ netID, net => netID == net.ScriptHashAddrID
  | .AddressWitnessPubKeyHash hrp _, net => hrp == net.Bech32HRPSegwit
  | .AddressTaproot hrp _, net => hrp == net.Bech32HRPSegwit
  | .AddressWitnessScriptHash hrp _, net => hrp == net.Bech32HRPSegwit
  | .AddressPubKey _ _ netID, net => netID == net.PubKeyHashAddrID

/-- A `btcutil.WIF`: the key, the compression flag, the network byte. -/
structure WIF where
  PrivKey : PrivateKey
  CompressPubKey : Bool
  netID : Nat
deriving DecidableEq

/-- `btcutil.NewWIF`; its only error is a nil network, which a `Params` value
never is. -/
def NewWIF (privKey : PrivateKey) (net : Params) (compress : Bool) : Except String WIF :=
  .ok ⟨privKey, compress, net.PrivateKeyID⟩

/-- The magic byte that marks a compressed-public-key WIF. -/
def compressMagic : Nat := 0x01

/-- `(*WIF).String`: network byte, 32 key bytes, `0x01` if compressed, and the
four checksum bytes, in Base58. -/
def WIF.String (w : WIF) : String :=
  let a := w.netID :: w.PrivKey.Serialize ++ (if w.CompressPubKey then [compressMagic] else [])
  Base58.Encode (a ++ Base58.checksum a)

/-- `(*WIF).IsForNet`. -/
def WIF.IsForNet (w : WIF) (net : Params) : Bool := w.netID == net.PrivateKeyID

/-- `btcutil.DecodeWIF`. -/
def DecodeWIF (wif : String) : Except String WIF :=
  let decoded := Base58.Decode wif
  let decodedLen := decoded.length
  if decodedLen = 1 + 32 + 1 + 4 then
    if decoded.getD 33 0 ≠ compressMagic then .error "malformed private key"
    else
      let tosum := decoded.take (1 + 32 + 1)
      if Base58.checksum tosum ≠ decoded.drop (decodedLen - 4) then .error "checksum mismatch"
      else .ok ⟨PrivKeyFromBytes ((decoded.drop 1).take 32), true, decoded.getD 0 0⟩
  else if decodedLen = 1 + 32 + 4 then
    let tosum := decoded.take (1 + 32)
    if Base58.checksum tosum ≠ decoded.drop (decodedLen - 4) then .error "checksum mismatch"
    else .ok ⟨PrivKeyFromBytes ((decoded.drop 1).take 32), false, decoded.getD 0 0⟩
  else .error "malformed private key"

/-! ## Decoding addresses (`btcutil.DecodeAddress`)

The program does not decode addresses.  The decoder of the library is modelled
to state what a decoder configured for one network does with the addresses the
program prints for the other.  An error is the fixed text of the library's
message, without its formatted arguments. -/

/-- The index of the last occurrence of `c` in a list, if there is one. -/
def lastIndexOf (c : Char) : List Char → Option Nat
  | [] => none
  | x :: xs =>
    match lastIndexOf c xs with
    | some i => some (i + 1)
    | none => if x = c then some 0 else none

namespace Bech32

/-- The state of the loop of `bech32.ConvertBits`: the group being filled, the
number of bits in it, the groups completed. -/
structure ConvState where
  nextByte : Nat
  filledBits : Nat
  regrouped : Bytes

/-- The inner loop of `bech32.ConvertBits` on one input group `b`, shifted to the
top of its byte, with `remFromBits` bits left to extract. -/
def convertInner (toBits : Nat) : Nat → Nat → Nat → ConvState → ConvState
  | 0, _, _, st => st
  | fuel + 1, b, remFromBits, st =>
    if remFromBits = 0 then st
    else
      let remToBits := toBits - st.filledBits
      let toExtract := if remToBits < remFromBits then remToBits else remFromBits
      let nextByte := ((st.nextByte <<< toExtract) ||| (b >>> (8 - toExtract))) % 256
      let filledBits := st.filledBits + toExtract
      convertInner toBits fuel ((b <<< toExtract) % 256) (remFromBits - toExtract)
        (if filledBits = toBits then ⟨0, 0, st.regrouped ++ [nextByte]⟩
         else ⟨nextByte, filledBits, st.regrouped⟩)

/-- `bech32.ConvertBits`: regroup `fromBits`-bit groups into `toBits`-bit groups. -/
def ConvertBits (data : Bytes) (fromBits toBits : Nat) (pad : Bool) : Except String Bytes :=
  if fromBits < 1 ∨ fromBits > 8 ∨ toBits < 1 ∨ toBits > 8 then
    .error "only bit groups between 1 and 8 allowed"
  else
    let st := data.foldl
      (fun st b => convertInner toBits 8 ((b <<< (8 - fromBits)) % 256) fromBits st) ⟨0, 0, []⟩
    let st : ConvState :=
      if pad = true ∧ st.filledBits > 0 then
        ⟨0, 0, st.regrouped ++ [(st.nextByte <<< (toBits - st.filledBits)) % 256]⟩
      else st
    if st.filledBits > 0 ∧ (st.filledBits > 4 ∨ st.nextByte ≠ 0) then
      .error "invalid incomplete group"
    else .ok st.regrouped

/-- The two checksum variants. -/
inductive Version
  | Version0
  | VersionM
deriving DecidableEq

/-- The character check at the start of `bech32.decodeNoLimit`: every character
is between 33 and 126 and the letters are of one case; the result says whether
an upper-case letter was seen. -/
def checkChars : List Char → Bool → Bool → Except String Bool
  | [], _, hasUpper => .ok hasUpper
  | c :: cs, hasLower, hasUpper =>
    if c.toNat < 33 ∨ c.toNat > 126 then .error "invalid character in string"
    else
      let hasLower1 := hasLower || (decide (97 ≤ c.toNat) && decide (c.toNat ≤ 122))
      let hasUpper1 := hasUpper || (decide (65 ≤ c.toNat) && decide (c.toNat ≤ 90))
      if hasLower1 = true ∧ hasUpper1 = true then .error "string not all lowercase or all uppercase"
      else checkChars cs hasLower1 hasUpper1

/-- `bech32.bech32VerifyChecksum`: the variant whose constant the checksum of
the data (checksum values included) equals. -/
def verifyChecksum (hrp : List Char) (data : List Nat) : Option Version :=
  let pm := polymod (hrpExpand hrp ++ data)
  if pm = 1 then some .Version0 else if pm = 0x2bc830a3 then some .VersionM else none

/-- `bech32.DecodeGeneric`: the human-readable part, the 5-bit data without the
checksum, and the checksum variant. -/
def DecodeGeneric (bech : String) : Except String (String × List Nat × Version) :=
  if bech.utf8ByteSize > 90 then .error "invalid bech32 string length"
  else if bech.utf8ByteSize < 8 then .error "invalid bech32 string length"
  else
    match checkChars bech.data false false with
    | .error e => .error e
    | .ok hasUpper =>
      let chars := if hasUpper then bech.data.map Char.toLower else bech.data
      match lastIndexOf '1' chars with
      | none => .error "invalid separator index"
      | some one =>
        if one < 1 ∨ one + 7 > chars.length then .error "invalid separator index"
        else
          let hrp := chars.take one
          let data := chars.drop (one + 1)
          if data.all (fun c => decide (c ∈ charset)) then
            let decoded := data.map charset.indexOf
            match verifyChecksum hrp decoded with
            | none => .error "invalid checksum"
            | some version => .ok (String.mk hrp, decoded.take (decoded.length - 6), version)
          else .error "invalid character not part of charset"

end Bech32

/-- `btcutil.decodeSegWitAddress`: the witness version and the witness program. -/
def decodeSegWitAddress (address : String) : Except String (Nat × Bytes) :=
  match Bech32.DecodeGeneric address with
  | .error e => .error e
  | .ok (_, data, bech32version) =>
    if data.length < 1 then .error "no witness version"
    else
      let version := data.getD 0 0
      if version > 16 then .error "invalid witness version"
      else
        match Bech32.ConvertBits (data.drop 1) 5 8 false with
        | .error e => .error e
        | .ok regrouped =>
          if regrouped.length < 2 ∨ regrouped.length > 40 then .error "invalid data length"
          else if version = 0 ∧ regrouped.length ≠ 20 ∧ regrouped.length ≠ 32 then
            .error "invalid data length for witness version 0"
          else if version = 0 ∧ bech32version ≠ .Version0 then
            .error "invalid checksum expected bech32 encoding for address with witness version 0"
          else if version = 1 ∧ bech32version ≠ .VersionM then
            .error "invalid checksum expected bech32m encoding for address with witness version 1"
          else .ok (version, regrouped)

/-- The segwit address prefixes of the networks that `chaincfg` registers. -/
def bech32SegwitPrefixes : List String := ["bc1", "tb1", "bcrt1", "sb1"]

/-- `chaincfg.IsBech32SegwitPrefix`. -/
def IsBech32SegwitPrefix (pfx : String) : Bool := decide (toLower pfx ∈ bech32SegwitPrefixes)

/-- The value of a hexadecimal digit, of either case. -/
def hexValue (c : Char) : Option Nat :=
  if '0' ≤ c ∧ c ≤ '9' then some (c.toNat - 48)
  else if 'a' ≤ c ∧ c ≤ 'f' then some (c.toNat - 87)
  else if 'A' ≤ c ∧ c ≤ 'F' then some (c.toNat - 55)
  else none

/-- Go `hex.DecodeString` on an even number of characters. -/
def hexDecode : List Char → Except String Bytes
  | p :: q :: rest =>
    match hexValue p, hexValue q with
    | some a, some b =>
      match hexDecode rest with
      | .ok bs => .ok ((a * 16 + b) :: bs)
      | .error e => .error e
    | _, _ => .error "encoding/hex: invalid byte"
  | [p] =>
    if (hexValue p).isNone then .error "encoding/hex: invalid byte"
    else .error "encoding/hex: odd length hex string"
  | [] => .ok []

/-- `btcec.ParsePubKey`: a compressed (33 bytes), uncompressed or hybrid (65
bytes) serialization of a point of the curve. -/
def ParsePubKey (serialized : Bytes) : Except String PublicKey :=
  let format := serialized.getD 0 0
  let x := bytesToNat ((serialized.drop 1).take 32)
  if serialized.length = 65 then
    if format ≠ 0x04 ∧ format ≠ 0x06 ∧ format ≠ 0x07 then .error "invalid public key: unsupported format"
    else
      let y := bytesToNat (serialized.drop 33)
      if x ≥ Secp256k1.P then .error "invalid public key: x >= field prime"
      else if y ≥ Secp256k1.P then .error "invalid public key: y >= field prime"
      else if (format = 0x06 ∨ format = 0x07) ∧ decide (y % 2 = 1) ≠ decide (format = 0x07) then
        .error "invalid public key: y oddness does not match specified value"
      else if y * y % Secp256k1.P ≠ (x * x * x + 7) % Secp256k1.P then
        .error "invalid public key: not on the curve"
      else .ok ⟨x, y⟩
  else if serialized.length = 33 then
    if format ≠ 0x02 ∧ format ≠ 0x03 then .error "invalid public key: unsupported format"
    else if x ≥ Secp256k1.P then .error "invalid public key: x >= field prime"
    else
      let rhs := (x * x * x + 7) % Secp256k1.P
      let y := Secp256k1.powMod 256 rhs ((Secp256k1.P + 1) / 4)
      if y * y % Secp256k1.P ≠ rhs then .error "invalid public key: x coordinate is not on the curve"
      else if decide (y % 2 = 1) ≠ decide (format = 0x03) then .ok ⟨x, (Secp256k1.P - y) % Secp256k1.P⟩
      else .ok ⟨x, y⟩
  else .error "malformed public key: invalid length"

/-- `btcutil.NewAddressPubKey`. -/
def NewAddressPubKey (serializedPubKey : Bytes) (net : Params) : Except String Address :=
  match ParsePubKey serializedPubKey with
  | .error e => .error e
  | .ok pubKey =>
    let pkFormat : PubKeyFormat :=
      if serializedPubKey.getD 0 0 = 0x02 ∨ serializedPubKey.getD 0 0 = 0x03 then .PKFCompressed
      else if serializedPubKey.getD 0 0 = 0x06 ∨ serializedPubKey.getD 0 0 = 0x07 then .PKFHybrid
      else .PKFUncompressed
    .ok (.AddressPubKey pkFormat pubKey net.PubKeyHashAddrID)

/-- `base58.CheckDecode`: the payload and the version byte. -/
def Base58.CheckDecode (input : String) : Except String (Bytes × Nat) :=
  let decoded := Base58.Decode input
  if decoded.length < 5 then .error "invalid format: version and/or checksum bytes missing"
  else if Base58.checksum (decoded.take (decoded.length - 4)) ≠ decoded.drop (decoded.length - 4) then
    .error "checksum error"
  else .ok ((decoded.drop 1).take (decoded.length - 5), decoded.getD 0 0)

/-- `btcutil.NewAddressWitnessScriptHash` with the human-readable part given:
the program must be 32 bytes. -/
def newAddressWitnessScriptHash (hrp : String) (witnessProg : Bytes) : Except String Address :=
  if witnessProg.length ≠ 32 then .error "witness program must be 32 bytes for p2wsh"
  else .ok (.AddressWitnessScriptHash (toLower hrp) witnessProg)

/-- The segwit branch of `btcutil.DecodeAddress` once the prefix is recognized:
the address of the decoded witness program, with the human-readable part `hrp`
taken from the string. -/
def DecodeAddress.segwitAddress (addr hrp : String) : Except String Address :=
  match decodeSegWitAddress addr with
  | .error e => .error e
  | .ok (witnessVer, witnessProg) =>
    if witnessVer ≠ 0 ∧ witnessVer ≠ 1 then .error "unsupported witness version"
    else if witnessProg.length = 20 then
      if witnessProg.length ≠ 20 then .error "witness program must be 20 bytes for p2wpkh"
      else .ok (.AddressWitnessPubKeyHash (toLower hrp) witnessProg)
    else if witnessProg.length = 32 then
      if witnessVer = 1 then
        if witnessProg.length ≠ 32 then .error "witness program must be 32 bytes for p2tr"
        else .ok (.AddressTaproot (toLower hrp) witnessProg)
      else newAddressWitnessScriptHash hrp witnessProg
    else .error "unsupported witness program length"

/-- The test that opens `btcutil.DecodeAddress`: if the string up to its last
`1` (at a byte index above 1) is a registered segwit prefix, the result of the
segwit branch. -/
def DecodeAddress.segwit (addr : String) : Option (Except String Address) :=
  match lastIndexOf '1' addr.data with
  | none => none
  | some i =>
    let oneIndex := (String.mk (addr.data.take i)).utf8ByteSize
    let pfx := String.mk (addr.data.take (i + 1))
    if oneIndex > 1 ∧ IsBech32SegwitPrefix pfx = true then
      some (DecodeAddress.segwitAddress addr (String.mk (addr.data.take i)))
    else none

/-- The end of `btcutil.DecodeAddress`: a Base58Check string of a 20-byte hash
under the P2PKH or the P2SH version byte of `defaultNet`. -/
def DecodeAddress.base58 (addr : String) (defaultNet : Params) : Except String Address :=
  match Base58.CheckDecode addr with
  | .error e =>
    if e = "checksum error" then .error "checksum mismatch"
    else .error "decoded address is of unknown format"
  | .ok (decoded, netID) =>
    if decoded.length = 20 then
      if netID = defaultNet.PubKeyHashAddrID ∧ netID = defaultNet.ScriptHashAddrID then
        .error "address collision"
      else if netID = defaultNet.PubKeyHashAddrID then
        if decoded.length ≠ 20 then .error "pkHash must be 20 bytes"
        else .ok (.AddressPubKeyHash decoded netID)
      else if netID = defaultNet.ScriptHashAddrID then
        if decoded.length ≠ 20 then .error "scriptHash must be 20 bytes"
        else .ok (.AddressScriptHash decoded netID)
      else .error "unknown address type"
    else .error "decoded address is of unknown size"

/-- `btcutil.DecodeAddress`: the address that a string stands for, read for the
network `defaultNet`: a segwit address of a registered prefix, a serialized
public key in hexadecimal (130 or 66 bytes), or a Base58Check address. -/
def DecodeAddress (addr : String) (defaultNet : Params) : Except String Address :=
  match DecodeAddress.segwit addr with
  | some result => result
  | none =>
    if addr.utf8ByteSize = 130 ∨ addr.utf8ByteSize = 66 then
      match hexDecode addr.data with
      | .error e => .error e
      | .ok serializedPubKey => NewAddressPubKey serializedPubKey defaultNet
    else DecodeAddress.base58 addr defaultNet

/-- A string is a valid address of a network when `btcutil.DecodeAddress`
returns an address for it and that address `IsForNet` the network. -/
def validAddressFor (addr : String) (net : Params) : Bool :=
  match DecodeAddress addr net with
  | .ok address => address.IsForNet net
  | .error _ => false

/-! ## The program (`cmd/main.go`) -/

/-- The tag of legacy addresses. -/
def AddressTypeP2PKH : String := "p2pkh"
/-- The tag of P2SH-wrapped witness addresses. -/
def AddressTypeP2SH : String := "p2sh"
/-- The tag of native witness addresses. -/
def AddressTypeP2WPKH : String := "p2wpkh"
/-- The tag of Taproot addresses. -/
def AddressTypeP2TR : String := "p2tr"

/-- What the process writes. -/
inductive Event
  /-- Text written to standard output by `fmt.Printf`. -/
  | stdout (text : String)
  /-- A message written through the `log` package (standard error; the
  time stamp that `log` puts in front is not recorded). -/
  | log (msg : String)
  /-- The usage text printed by `flag.Usage()` (standard error). -/
  | usage
deriving DecidableEq

/-- A run: the events in order, and how it ended; `exitCode` is `none` while the
function returns normally and `some c` once the process has exited with `c`. -/
structure Run where
  events : List Event
  exitCode : Option Nat
deriving DecidableEq

/-- `log.Fatal` / `log.Fatalf`: the message, then `os.Exit(1)`. -/
def logFatal (msg : String) : Run := ⟨[.log msg], some 1⟩

/-- The `switch addressType` of `generateKeyPair` (lines 78 to 106): the pair
`(address, addrErr)` as one value. -/
def generateKeyPair.switch (addressType : String) (params : Params) (pubKey : PublicKey)
    (pubKeyBytes : Bytes) : Except String Address :=
  if addressType = AddressTypeP2PKH then
    NewAddressPubKeyHash (Hash160 pubKeyBytes) params
  else if addressType = AddressTypeP2SH then
    let witnessProg := Hash160 pubKeyBytes
    let redeemScript := (((NewScriptBuilder).AddOp OP_0).AddData witnessProg).Script.1
    NewAddressScriptHash redeemScript params
  else if addressType = AddressTypeP2WPKH then
    let witnessProg := Hash160 pubKeyBytes
    NewAddressWitnessPubKeyHash witnessProg params
  else if addressType = AddressTypeP2TR then
    let witnessProgram := bigIntBytes pubKey.X
    NewAddressTaproot witnessProgram params
  else
    .error ("未知的地址类型: " ++ addressType)

/-- `generateKeyPair`; `entropy` is what `btcec.NewPrivateKey()` returns. -/
def generateKeyPair (addressType : String) (params : Params)
    (entropy : Except String PrivateKey) : Run :=
  match entropy with
  | .error err => logFatal ("生成私钥失败: " ++ err)
  | .ok privateKey =>
    match NewWIF privateKey params true with
    | .error err => logFatal ("转换WIF格式失败: " ++ err)
    | .ok wif =>
      let pubKey := privateKey.PubKey
      let pubKeyBytes := pubKey.SerializeCompressed
      let result := generateKeyPair.switch addressType params pubKey pubKeyBytes
      let warning : List Event :=
        match result with
        | .error addrErr => [.log ("警告: 无法生成 " ++ addressType ++ " 类型的地址: " ++ addrErr)]
        | .ok _ => []
      let networkName := if params.Name ≠ "mainnet" then "测试网" else "主网"
      ⟨warning ++
        [.stdout ("生成了新的比特币密钥对（" ++ addressType ++ "，" ++ networkName ++ "）\n"),
         .stdout ("私钥 (WIF格式): " ++ wif.String ++ "\n"),
         .stdout ("公钥 (压缩格式): " ++ hexString pubKeyBytes ++ "\n"),
         match result with
         | .ok address => .stdout ("地址: " ++ address.EncodeAddress ++ "\n")
         | .error _ => .stdout "地址: 不支持生成此类型地址\n"],
       none⟩

/-- The `switch addressType` of `importPrivateKey` (lines 150 to 178). -/
def importPrivateKey.switch (addressType : String) (params : Params) (pubKey : PublicKey)
    (pubKeyBytes : Bytes) : Except String Address :=
  if addressType = AddressTypeP2PKH then
    NewAddressPubKeyHash (Hash160 pubKeyBytes) params
  else if addressType = AddressTypeP2SH then
    let witnessProg := Hash160 pubKeyBytes
    let redeemScript := (((NewScriptBuilder).AddOp OP_0).AddData witnessProg).Script.1
    NewAddressScriptHash redeemScript params
  else if addressType = AddressTypeP2WPKH then
    let witnessProg := Hash160 pubKeyBytes
    NewAddressWitnessPubKeyHash witnessProg params
  else if addressType = AddressTypeP2TR then
    let witnessProgram := bigIntBytes pubKey.X
    NewAddressTaproot witnessProgram params
  else
    .error ("未知的地址类型: " ++ addressType)

/-- `importPrivateKey`. -/
def importPrivateKey (wifStr : String) (addressType : String) (params : Params) : Run :=
  match DecodeWIF wifStr with
  | .error err => logFatal ("无效的WIF格式私钥: " ++ err)
  | .ok wif =>
    if wif.IsForNet params = false then logFatal "私钥网络类型不匹配"
    else
      let pubKey := wif.PrivKey.PubKey
      let pubKeyBytes := pubKey.SerializeCompressed
      let result := importPrivateKey.switch addressType params pubKey pubKeyBytes
      let warning : List Event :=
        match result with
        | .error addrErr => [.log ("警告: 无法生成 " ++ addressType ++ " 类型的地址: " ++ addrErr)]
        | .ok _ => []
      let networkName := if params.Name ≠ "mainnet" then "测试网" else "主网"
      ⟨warning ++
        [.stdout ("从私钥导入的比特币公钥（" ++ addressType ++ "，" ++ networkName ++ "）\n"),
         .stdout ("公钥 (压缩格式): " ++ hexString pubKeyBytes ++ "\n"),
         match result with
         | .ok address => .stdout ("地址: " ++ address.EncodeAddress ++ "\n")
         | .error _ => .stdout "地址: 不支持生成此类型地址\n"],
       none⟩

/-- The command-line flags after `flag.Parse()`. -/
structure Flags where
  generateKey : Bool
  importPrivKey : String
  addressType : String
  testnet : Bool

/-- The default flag values: `-type` defaults to `p2pkh`. -/
def Flags.default : Flags := ⟨false, "", AddressTypeP2PKH, false⟩

/-- The network parameters `main` selects (lines 43 to 46): `TestNet3Params`
with `-testnet`, `MainNetParams` without. -/
def selectParams (testnet : Bool) : Params := if testnet then TestNet3Params else MainNetParams

/-- A function that returned normally ends the process with status 0. -/
def Run.exit (r : Run) : Run := ⟨r.events, some (r.exitCode.getD 0)⟩

/-- `main`, after `flag.Parse()`; `entropy` is what `btcec.NewPrivateKey()`
returns if it is called. -/
def main (flags : Flags) (entropy : Except String PrivateKey) : Run :=
  if flags.generateKey = true ∧ flags.importPrivKey ≠ "" then
    logFatal "不能同时指定 -generate 和 -import 参数"
  else if flags.generateKey = false ∧ flags.importPrivKey = "" then
    ⟨[.usage], some 1⟩
  else
    let params := selectParams flags.testnet
    if flags.generateKey = true then
      (generateKeyPair flags.addressType params entropy).exit
    else
      (importPrivateKey flags.importPrivKey flags.addressType params).exit

/-! ## Observations on a run -/

/-- The address line of a run: its last event. -/
def Run.addressLine (r : Run) : Option Event := r.events.getLast?

/-- The texts a run writes to standard output, in order. -/
def Run.stdout (r : Run) : List String :=
  r.events.filterMap fun e => match e with
    | .stdout text => some text
    | _ => none

/-- The warnings of a run: its `log` events. -/
def Run.warnings (r : Run) : List Event :=
  r.events.filter fun e => match e with
    | .log _ => true
    | _ => false

/-- The run prints a public-key line. -/
def Run.printsPublicKey (r : Run) : Prop :=
  ∃ pk : String, Event.stdout ("公钥 (压缩格式): " ++ pk ++ "\n") ∈ r.events

/-- The run prints an address line: the line of the text of some address. -/
def Run.printsAddress (r : Run) : Prop :=
  ∃ address : Address, Event.stdout ("地址: " ++ address.EncodeAddress ++ "\n") ∈ r.events

/-- An address value as the library builds it: a hash of 20 bytes. -/
def Address.WellFormed : Address → Prop
  | .AddressPubKeyHash hash _ => IsBytes hash ∧ hash.length = 20
  | .AddressScriptHash hash _ => IsBytes hash ∧ hash.length = 20
  | _ => True

/-- The text of an address is a Base58Check string of a 20-byte hash under the
P2PKH or P2SH version byte of a network, or a segwit string with the
human-readable part of the network. -/
def TextOf (s : String) (net : Params) : Prop :=
  (∃ h v, s = Base58.CheckEncode h v ∧ IsBytes h ∧ h.length = 20
      ∧ (v = net.PubKeyHashAddrID ∨ v = net.ScriptHashAddrID))
    ∨ ∃ v p, s = encodeSegWitAddress net.Bech32HRPSegwit v p

/-! # Theorems -/

/-! ## Lengths -/

/-- A RIPEMD-160 digest has 20 bytes. -/
theorem Ripemd160.ripemd160_length (m : Bytes) : (Ripemd160.sum m).length = 20 := by
  simp [Ripemd160.sum, Ripemd160.le32]

/-- A SHA-256 digest has 32 bytes. -/
theorem Sha256.sha256_length (m : Bytes) : (Sha256.sum m).length = 32 := by
  simp [Sha256.sum, Sha256.be32]

/-- `Hash160` returns 20 bytes. -/
theorem Hash160_length (buf : Bytes) : (Hash160 buf).length = 20 :=
  Ripemd160.ripemd160_length _

/-- The fixed-width encoding has the width asked for. -/
theorem fixedBytes_length (len n : Nat) : (fixedBytes len n).length = len := by
  induction len with
  | zero => rfl
  | succ l ih => simp [fixedBytes, ih]

/-- A compressed public key has 33 bytes. -/
theorem SerializeCompressed_length (p : PublicKey) : p.SerializeCompressed.length = 33 := by
  simp [PublicKey.SerializeCompressed, fixedBytes_length]

/-! ## The two switches -/

/-- The switch of `importPrivateKey` is the switch of `generateKeyPair`. -/
theorem switch_eq : importPrivateKey.switch = generateKeyPair.switch := rfl

/-- The default branch of the switch. -/
theorem switch_unknown (addressType : String) (params : Params) (pubKey : PublicKey)
    (pubKeyBytes : Bytes)
    (h1 : addressType ≠ "p2pkh") (h2 : addressType ≠ "p2sh") (h3 : addressType ≠ "p2wpkh")
    (h4 : addressType ≠ "p2tr") :
    generateKeyPair.switch addressType params pubKey pubKeyBytes
      = .error ("未知的地址类型: " ++ addressType) := by
  simp [generateKeyPair.switch, AddressTypeP2PKH, AddressTypeP2SH, AddressTypeP2WPKH,
    AddressTypeP2TR, h1, h2, h3, h4]

/-- The script that `OP_0` followed by a push of 20 bytes builds. -/
theorem redeemScript_eq (h : Bytes) (hl : h.length = 20) :
    ((NewScriptBuilder.AddOp OP_0).AddData h).Script = (0x00 :: 0x14 :: h, none) := by
  simp [NewScriptBuilder, ScriptBuilder.AddOp, ScriptBuilder.AddData, ScriptBuilder.Script,
    ScriptBuilder.addData, canonicalDataSize, hl, MaxScriptSize, MaxScriptElementSize, OP_0,
    OP_PUSHDATA1, OP_DATA_1]

/-! ## Digits -/

/-- The value that `foldl` accumulates, in terms of `Nat.ofDigits`. -/
theorem foldl_eq_ofDigits (base : Nat) (l : List Nat) (a : Nat) :
    l.foldl (fun acc x => acc * base + x) a
      = a * base ^ l.length + Nat.ofDigits base l.reverse := by
  induction l generalizing a with
  | nil => simp
  | cons x xs ih =>
    simp only [List.foldl_cons, ih, List.length_cons, List.reverse_cons, Nat.ofDigits_append,
      Nat.ofDigits_singleton, List.length_reverse]
    ring

/-- The value of a byte string is the value of its digits in base 256. -/
theorem bytesToNat_eq (b : Bytes) : bytesToNat b = Nat.ofDigits 256 b.reverse := by
  simp [bytesToNat, foldl_eq_ofDigits]

/-- With enough fuel `digitsAux` lists the digits of Mathlib's `Nat.digits`,
most significant first. -/
theorem digitsAux_eq (base : Nat) (hb : 1 < base) (fuel n : Nat) (acc : List Nat)
    (hf : n ≤ fuel) : digitsAux base fuel n acc = (Nat.digits base n).reverse ++ acc := by
  induction fuel generalizing n acc with
  | zero =>
    have : n = 0 := by omega
    subst this
    simp [digitsAux]
  | succ f ih =>
    by_cases hn : n = 0
    · subst hn; simp [digitsAux]
    · have hlt : n / base < n := Nat.div_lt_self (Nat.pos_of_ne_zero hn) hb
      rw [digitsAux, if_neg hn, ih _ _ (by omega),
        Nat.digits_def' hb (Nat.pos_of_ne_zero hn)]
      simp

/-- `bigIntBytes` lists the base-256 digits, most significant first. -/
theorem bigIntBytes_eq (n : Nat) : bigIntBytes n = (Nat.digits 256 n).reverse := by
  simp [bigIntBytes, digitsAux_eq 256 (by norm_num) n n [] le_rfl]

/-- Leading zero bytes do not change the value. -/
theorem bytesToNat_zero_cons (b : Bytes) : bytesToNat (0 :: b) = bytesToNat b := by
  simp [bytesToNat]

/-- A byte string is its leading zeros followed by the minimal big-endian
bytes of its value. -/
theorem leading_append_bigIntBytes (b : Bytes) (hb : IsBytes b) :
    List.replicate (Base58.leading 0 b) 0 ++ bigIntBytes (bytesToNat b) = b := by
  induction b with
  | nil => simp [Base58.leading, bigIntBytes_eq, bytesToNat]
  | cons x xs ih =>
    by_cases hx : x = 0
    · subst hx
      have hxs : IsBytes xs := fun y hy => hb y (List.mem_cons_of_mem _ hy)
      simp only [Base58.leading, if_true, bytesToNat_zero_cons, List.replicate_succ,
        List.cons_append, ih hxs]
    · have hd : Nat.digits 256 (Nat.ofDigits 256 (x :: xs).reverse) = (x :: xs).reverse := by
        apply Nat.digits_ofDigits 256 (by norm_num)
        · intro l hl
          exact hb l (List.mem_reverse.mp hl)
        · intro _
          simpa using hx
      simp only [Base58.leading, if_neg hx, List.replicate_zero, List.nil_append, bigIntBytes_eq,
        bytesToNat_eq, hd, List.reverse_reverse]

/-- The value of the fixed-width encoding. -/
theorem bytesToNat_fixedBytes (len n : Nat) : bytesToNat (fixedBytes len n) = n % 256 ^ len := by
  induction len with
  | zero => simp [fixedBytes, bytesToNat, Nat.mod_one]
  | succ l ih =>
    have h := foldl_eq_ofDigits 256 (fixedBytes l n) ((n / 256 ^ l) % 256)
    have h0 := foldl_eq_ofDigits 256 (fixedBytes l n) 0
    simp only [bytesToNat] at ih
    rw [ih] at h0
    simp only [bytesToNat, fixedBytes, List.foldl_cons, Nat.zero_mul, Nat.zero_add]
    rw [h, fixedBytes_length, Nat.mod_pow_succ]
    simp only [Nat.zero_mul, Nat.zero_add] at h0
    rw [← h0]
    ring

/-- The fixed-width encoding consists of bytes. -/
theorem fixedBytes_isBytes (len n : Nat) : IsBytes (fixedBytes len n) := by
  induction len with
  | zero => intro x hx; simp [fixedBytes] at hx
  | succ l ih =>
    intro x hx
    simp only [fixedBytes, List.mem_cons] at hx
    rcases hx with rfl | hx
    · exact Nat.mod_lt _ (by norm_num)
    · exact ih x hx

/-! ## Base58 round trip -/

namespace Base58

/-- Decoding table facts: the character of a digit is in the alphabet, at the
index of the digit. -/
theorem alphabet_index :
    ∀ d, d < 58 → alphabet.getD d '1' ∈ alphabet ∧ alphabet.indexOf (alphabet.getD d '1') = d := by
  decide!

/-- The characters of base-58 digits are in the alphabet. -/
theorem all_mem_alphabet (ds : List Nat) (h : ∀ d ∈ ds, d < 58) :
    (ds.map fun d => alphabet.getD d '1').all (fun c => decide (c ∈ alphabet)) = true := by
  simp only [List.all_eq_true, List.mem_map, decide_eq_true_eq]
  rintro c ⟨d, hd, rfl⟩
  exact (alphabet_index d (h d hd)).1

/-- Reading the characters of base-58 digits gives the digits back. -/
theorem map_indexOf (ds : List Nat) (h : ∀ d ∈ ds, d < 58) :
    (ds.map fun d => alphabet.getD d '1').map alphabet.indexOf = ds := by
  induction ds with
  | nil => rfl
  | cons d ds ih =>
    simp only [List.map_cons, (alphabet_index d (h d (List.mem_cons_self _ _))).2]
    rw [ih fun x hx => h x (List.mem_cons_of_mem _ hx)]

/-- The number of leading `z` in `n` copies of `z` followed by a list that does
not start with `z`. -/
theorem leading_replicate_append {α : Type} [DecidableEq α] (z : α) (n : Nat) (l : List α)
    (hl : leading z l = 0) : leading z (List.replicate n z ++ l) = n := by
  induction n with
  | zero => simpa using hl
  | succ n ih => simp [List.replicate_succ, leading, ih]

/-- The characters of the digits of a number do not start with `1`. -/
theorem leading_digits (n : Nat) :
    leading '1' ((Nat.digits 58 n).reverse.map fun d => alphabet.getD d '1') = 0 := by
  by_cases hn : n = 0
  · subst hn; simp [leading]
  · have hne : Nat.digits 58 n ≠ [] := Nat.digits_ne_nil_iff_ne_zero.mpr hn
    have hlast := Nat.getLast_digit_ne_zero 58 hn
    obtain ⟨l, a, hla⟩ : ∃ l a, Nat.digits 58 n = l ++ [a] :=
      ⟨_, _, (List.dropLast_append_getLast hne).symm⟩
    have ha : a ≠ 0 := by
      have : (Nat.digits 58 n).getLast hne = a := by simp [hla]
      rw [← this]; exact hlast
    have halt : a < 58 := Nat.digits_lt_base (by norm_num) (by rw [hla]; simp)
    rw [hla]
    simp only [List.reverse_append, List.reverse_cons, List.reverse_nil, List.nil_append,
      List.singleton_append, List.map_cons, leading]
    rw [if_neg]
    intro hc
    have := (alphabet_index a halt).2
    rw [hc] at this
    exact ha (by rw [← this]; decide)

/-- `base58.Decode` inverts `base58.Encode` on byte strings. -/
theorem Decode_Encode (b : Bytes) (hb : IsBytes b) : Decode (Encode b) = b := by
  have hdig : digitsAux 58 (bytesToNat b) (bytesToNat b) []
      = (Nat.digits 58 (bytesToNat b)).reverse := by
    simp [digitsAux_eq 58 (by norm_num) _ _ [] le_rfl]
  have hlt : ∀ d ∈ (Nat.digits 58 (bytesToNat b)).reverse, d < 58 := fun d hd =>
    Nat.digits_lt_base (by norm_num) (List.mem_reverse.mp hd)
  have hall : (List.replicate (leading 0 b) '1' ++
      ((Nat.digits 58 (bytesToNat b)).reverse.map fun d => alphabet.getD d '1')).all
        (fun c => decide (c ∈ alphabet)) = true := by
    rw [List.all_append, all_mem_alphabet _ hlt]
    simp only [Bool.and_true, List.all_eq_true, decide_eq_true_eq]
    intro c hc
    rw [List.eq_of_mem_replicate hc]
    decide
  have hval : ((List.replicate (leading 0 b) '1' ++
      ((Nat.digits 58 (bytesToNat b)).reverse.map fun d => alphabet.getD d '1')).map
        alphabet.indexOf).foldl (fun acc d => acc * 58 + d) 0 = bytesToNat b := by
    rw [List.map_append, map_indexOf _ hlt, foldl_eq_ofDigits]
    simp only [List.map_replicate, List.reverse_append, List.reverse_reverse,
      List.reverse_replicate, Nat.ofDigits_append, Nat.ofDigits_digits, Nat.zero_mul,
      Nat.zero_add]
    have h0 : alphabet.indexOf '1' = 0 := by decide
    rw [h0]
    have hz : ∀ k, Nat.ofDigits 58 (List.replicate k 0) = 0 := by
      intro k
      induction k with
      | zero => rfl
      | succ k ih => simp [List.replicate_succ, Nat.ofDigits_cons, ih]
    simp [hz]
  unfold Decode Encode
  simp only [hdig, hall, if_true, hval, leading_replicate_append _ _ _ (leading_digits _)]
  exact leading_append_bigIntBytes b hb

end Base58

/-! ## WIF round trip -/

/-- A SHA-256 digest consists of bytes. -/
theorem Sha256.sha256_isBytes (m : Bytes) : IsBytes (Sha256.sum m) := by
  intro x hx
  simp only [Sha256.sum, Sha256.be32, List.mem_append, List.mem_cons, List.mem_singleton,
    List.not_mem_nil, or_false] at hx
  rcases hx with ((((((h | h) | h) | h) | h) | h) | h) | h <;>
    rcases h with h | h | h | h <;> (subst h; exact Nat.mod_lt _ (by norm_num))

/-- The checksum has four bytes. -/
theorem Base58.checksum_length (input : Bytes) : (Base58.checksum input).length = 4 := by
  simp [Base58.checksum, Sha256.sha256_length]

/-- The checksum consists of bytes. -/
theorem Base58.checksum_isBytes (input : Bytes) : IsBytes (Base58.checksum input) :=
  fun x hx => Sha256.sha256_isBytes _ x (List.mem_of_mem_take hx)

/-- A scalar below the group order survives serialization and parsing. -/
theorem PrivKeyFromBytes_Serialize (k : PrivateKey) (hk : k.Key < Secp256k1.N) :
    PrivKeyFromBytes k.Serialize = k := by
  have hN : Secp256k1.N < 256 ^ 32 := by decide
  have h1 : k.Key % 256 ^ 32 = k.Key := Nat.mod_eq_of_lt (lt_trans hk hN)
  have h2 : (fixedBytes 32 k.Key).take 32 = fixedBytes 32 k.Key :=
    List.take_of_length_le (by rw [fixedBytes_length])
  simp only [PrivKeyFromBytes, PrivateKey.Serialize, h2, bytesToNat_fixedBytes, h1,
    Nat.mod_eq_of_lt hk]

/-- Decoding the string of a WIF value gives the value back. -/
theorem DecodeWIF_String (w : WIF) (hid : w.netID < 256) (hk : w.PrivKey.Key < Secp256k1.N) :
    DecodeWIF w.String = .ok w := by
  obtain ⟨k, c, id⟩ := w
  simp only at hid hk
  have hfl : (fixedBytes 32 k.Key).length = 32 := fixedBytes_length _ _
  cases c with
  | true =>
    have hbytes : IsBytes ((id :: k.Serialize ++ [compressMagic])
        ++ Base58.checksum (id :: k.Serialize ++ [compressMagic])) := by
      intro x hx
      simp only [List.mem_append, List.mem_cons, List.mem_singleton, List.not_mem_nil,
        or_false, List.cons_append] at hx
      rcases hx with rfl | (h | rfl) | h
      · exact hid
      · exact fixedBytes_isBytes _ _ x h
      · decide
      · exact Base58.checksum_isBytes _ x h
    have hlen : (id :: k.Serialize ++ [compressMagic]).length = 34 := by
      simp [PrivateKey.Serialize, hfl]
    simp only [DecodeWIF, WIF.String, if_true, Base58.Decode_Encode _ hbytes, List.length_append,
      hlen, Base58.checksum_length]
    rw [List.take_left' hlen, List.drop_left' hlen]
    have h33 : ((id :: k.Serialize ++ [compressMagic])
        ++ Base58.checksum (id :: k.Serialize ++ [compressMagic])).getD 33 0 = compressMagic := by
      rw [List.getD_append _ _ _ _ (by rw [hlen]; norm_num),
        List.getD_append_right _ _ _ _ (by simp [PrivateKey.Serialize, hfl])]
      simp [PrivateKey.Serialize, hfl]
    have hkey : (((id :: k.Serialize ++ [compressMagic])
        ++ Base58.checksum (id :: k.Serialize ++ [compressMagic])).drop 1).take 32
          = k.Serialize := by
      simp only [List.cons_append, List.drop_succ_cons, List.drop_zero, List.append_assoc]
      exact List.take_left' (by simp [PrivateKey.Serialize, hfl])
    rw [h33, hkey, PrivKeyFromBytes_Serialize k hk]
    simp
  | false =>
    have hbytes : IsBytes ((id :: k.Serialize ++ [])
        ++ Base58.checksum (id :: k.Serialize ++ [])) := by
      intro x hx
      simp only [List.mem_append, List.mem_cons, List.not_mem_nil, or_false,
        List.cons_append, List.append_nil] at hx
      rcases hx with rfl | h | h
      · exact hid
      · exact fixedBytes_isBytes _ _ x h
      · exact Base58.checksum_isBytes _ x h
    have hlen : (id :: k.Serialize ++ []).length = 33 := by
      simp [PrivateKey.Serialize, hfl]
    simp only [DecodeWIF, WIF.String, Bool.false_eq_true, if_false,
      Base58.Decode_Encode _ hbytes, List.length_append, hlen, Base58.checksum_length]
    rw [List.take_left' hlen, List.drop_left' hlen]
    have hkey : (((id :: k.Serialize ++ [])
        ++ Base58.checksum (id :: k.Serialize ++ [])).drop 1).take 32 = k.Serialize := by
      simp only [List.cons_append, List.drop_succ_cons, List.drop_zero, List.append_assoc,
        List.append_nil]
      exact List.take_left' (by simp [PrivateKey.Serialize, hfl])
    rw [hkey, PrivKeyFromBytes_Serialize k hk]
    simp

/-- The network byte of either network is a byte. -/
theorem selectParams_PrivateKeyID_lt (testnet : Bool) :
    (selectParams testnet).PrivateKeyID < 256 := by
  cases testnet <;> decide

/-- C8. WIF round trip: for every valid private key and either network, the WIF
string that `generateKeyPair` prints (`NewWIF` with the selected parameters and
`compressed = true`, then `String`) decodes with `DecodeWIF` to the same WIF
value, so to the same private key, it is accepted by `IsForNet` for the same
network, and `importPrivateKey` on it under the same network never exits
fatally. -/
theorem wif_round_trip (k : PrivateKey) (hk : k.Valid) (testnet : Bool) :
    ∃ wif, NewWIF k (selectParams testnet) true = .ok wif
      ∧ (∀ addressType, Event.stdout ("私钥 (WIF格式): " ++ wif.String ++ "\n")
          ∈ (generateKeyPair addressType (selectParams testnet) (.ok k)).events)
      ∧ DecodeWIF wif.String = .ok wif
      ∧ wif.PrivKey = k
      ∧ wif.IsForNet (selectParams testnet) = true
      ∧ ∀ addressType,
          (importPrivateKey wif.String addressType (selectParams testnet)).exitCode = none := by
  have hd : DecodeWIF (WIF.mk k true (selectParams testnet).PrivateKeyID).String
      = .ok ⟨k, true, (selectParams testnet).PrivateKeyID⟩ :=
    DecodeWIF_String _ (selectParams_PrivateKeyID_lt testnet) hk.2
  refine ⟨⟨k, true, (selectParams testnet).PrivateKeyID⟩, rfl, ?_, hd, rfl, ?_, ?_⟩
  · intro addressType
    simp [generateKeyPair, NewWIF]
  · simp [WIF.IsForNet]
  · intro addressType
    simp [importPrivateKey, hd, WIF.IsForNet]

/-- C8 at the private key 153 on mainnet. -/
theorem wif_round_trip_witness :
    ∃ wif, NewWIF ⟨153⟩ (selectParams false) true = .ok wif
      ∧ (∀ addressType, Event.stdout ("私钥 (WIF格式): " ++ wif.String ++ "\n")
          ∈ (generateKeyPair addressType (selectParams false) (.ok ⟨153⟩)).events)
      ∧ DecodeWIF wif.String = .ok wif
      ∧ wif.PrivKey = ⟨153⟩
      ∧ wif.IsForNet (selectParams false) = true
      ∧ ∀ addressType,
          (importPrivateKey wif.String addressType (selectParams false)).exitCode = none :=
  wif_round_trip ⟨153⟩ (by decide) false

/-! ## Addresses of the two networks -/

/-- `base58.Encode` is injective on byte strings. -/
theorem Base58.Encode_injective (a b : Bytes) (ha : IsBytes a) (hb : IsBytes b)
    (h : Base58.Encode a = Base58.Encode b) : a = b := by
  rw [← Base58.Decode_Encode a ha, ← Base58.Decode_Encode b hb, h]

/-- A RIPEMD-160 digest consists of bytes. -/
theorem Ripemd160.ripemd160_isBytes (m : Bytes) : IsBytes (Ripemd160.sum m) := by
  intro x hx
  simp only [Ripemd160.sum, Ripemd160.le32, List.mem_append, List.mem_cons, List.mem_singleton,
    List.not_mem_nil, or_false] at hx
  rcases hx with (((h | h) | h) | h) | h <;>
    rcases h with h | h | h | h <;> (subst h; exact Nat.mod_lt _ (by norm_num))

/-- Base58Check strings with different version bytes differ. -/
theorem Base58.CheckEncode_ne (h1 h2 : Bytes) (v1 v2 : Nat) (hh1 : IsBytes h1)
    (hh2 : IsBytes h2) (hv1 : v1 < 256) (hv2 : v2 < 256) (hv : v1 ≠ v2) :
    Base58.CheckEncode h1 v1 ≠ Base58.CheckEncode h2 v2 := by
  intro he
  have hb : ∀ (h : Bytes) (v : Nat), IsBytes h → v < 256 →
      IsBytes (v :: h ++ Base58.checksum (v :: h)) := by
    intro h v hh hv x hx
    simp only [List.cons_append, List.mem_cons, List.mem_append] at hx
    rcases hx with rfl | hx | hx
    · exact hv
    · exact hh x hx
    · exact Base58.checksum_isBytes _ x hx
  have := Base58.Encode_injective _ _ (hb h1 v1 hh1 hv1) (hb h2 v2 hh2 hv2) he
  simp only [List.cons_append, List.cons.injEq] at this
  exact hv this.1

/-- Segwit address strings of the two networks differ. -/
theorem encodeSegWitAddress_ne (v1 v2 : Nat) (p1 p2 : Bytes) :
    encodeSegWitAddress (toLower MainNetParams.Bech32HRPSegwit) v1 p1
      ≠ encodeSegWitAddress (toLower TestNet3Params.Bech32HRPSegwit) v2 p2 := by
  have hm : (toLower MainNetParams.Bech32HRPSegwit).data.map Char.toLower = ['b', 'c'] := by
    decide
  have ht : (toLower TestNet3Params.Bech32HRPSegwit).data.map Char.toLower = ['t', 'b'] := by
    decide
  intro he
  simp only [encodeSegWitAddress, Bech32.encode, hm, ht, List.cons_append] at he
  have hd := congrArg String.data he
  simp only [List.cons.injEq] at hd
  exact absurd hd.1 (by decide)

/-- What the switch returns for the four recognized tags. -/
theorem switch_recognized (params : Params) (pubKey : PublicKey) (pubKeyBytes : Bytes) :
    generateKeyPair.switch "p2pkh" params pubKey pubKeyBytes
        = .ok (.AddressPubKeyHash (Hash160 pubKeyBytes) params.PubKeyHashAddrID)
      ∧ generateKeyPair.switch "p2sh" params pubKey pubKeyBytes
        = .ok (.AddressScriptHash (Hash160 (0x00 :: 0x14 :: Hash160 pubKeyBytes))
            params.ScriptHashAddrID)
      ∧ generateKeyPair.switch "p2wpkh" params pubKey pubKeyBytes
        = .ok (.AddressWitnessPubKeyHash (toLower params.Bech32HRPSegwit) (Hash160 pubKeyBytes))
      ∧ generateKeyPair.switch "p2tr" params pubKey pubKeyBytes
        = NewAddressTaproot (bigIntBytes pubKey.X) params := by
  have hs := redeemScript_eq (Hash160 pubKeyBytes) (Hash160_length _)
  refine ⟨?_, ?_, ?_, ?_⟩
  · simp [generateKeyPair.switch, AddressTypeP2PKH, NewAddressPubKeyHash, Hash160_length]
  · simp [generateKeyPair.switch, AddressTypeP2PKH, AddressTypeP2SH, hs, NewAddressScriptHash,
      Hash160_length]
  · simp [generateKeyPair.switch, AddressTypeP2PKH, AddressTypeP2SH, AddressTypeP2WPKH,
      NewAddressWitnessPubKeyHash, Hash160_length]
  · simp [generateKeyPair.switch, AddressTypeP2PKH, AddressTypeP2SH, AddressTypeP2WPKH,
      AddressTypeP2TR]

/-- An address that the switch returns is one of four shapes, built from the
parameters it was given. -/
theorem switch_ok_shape (addressType : String) (params : Params) (pubKey : PublicKey)
    (pubKeyBytes : Bytes) (address : Address)
    (h : generateKeyPair.switch addressType params pubKey pubKeyBytes = .ok address) :
    (addressType = "p2pkh"
        ∧ address = .AddressPubKeyHash (Hash160 pubKeyBytes) params.PubKeyHashAddrID)
      ∨ (addressType = "p2sh"
        ∧ address = .AddressScriptHash (Hash160 (0x00 :: 0x14 :: Hash160 pubKeyBytes))
            params.ScriptHashAddrID)
      ∨ (addressType = "p2wpkh"
        ∧ address = .AddressWitnessPubKeyHash (toLower params.Bech32HRPSegwit)
            (Hash160 pubKeyBytes))
      ∨ (addressType = "p2tr"
        ∧ address = .AddressTaproot (toLower params.Bech32HRPSegwit) (bigIntBytes pubKey.X)) := by
  obtain ⟨h1, h2, h3, h4⟩ := switch_recognized params pubKey pubKeyBytes
  by_cases c1 : addressType = "p2pkh"
  · subst c1; rw [h1] at h; left; exact ⟨rfl, (Except.ok.inj h).symm⟩
  by_cases c2 : addressType = "p2sh"
  · subst c2; rw [h2] at h; right; left; exact ⟨rfl, (Except.ok.inj h).symm⟩
  by_cases c3 : addressType = "p2wpkh"
  · subst c3; rw [h3] at h; right; right; left; exact ⟨rfl, (Except.ok.inj h).symm⟩
  by_cases c4 : addressType = "p2tr"
  · subst c4; rw [h4] at h; right; right; right
    refine ⟨rfl, ?_⟩
    unfold NewAddressTaproot at h
    split_ifs at h
    exact (Except.ok.inj h).symm
  · rw [switch_unknown _ _ _ _ c1 c2 c3 c4] at h
    cases h

/-- An address that the switch returns belongs to the network it was built for
and not to the other one. -/
theorem switch_IsForNet (testnet : Bool) (addressType : String) (pubKey : PublicKey)
    (pubKeyBytes : Bytes) (address : Address)
    (h : generateKeyPair.switch addressType (selectParams testnet) pubKey pubKeyBytes
      = .ok address) :
    address.IsForNet (selectParams testnet) = true
      ∧ address.IsForNet (selectParams (!testnet)) = false := by
  rcases switch_ok_shape _ _ _ _ _ h with ⟨-, rfl⟩ | ⟨-, rfl⟩ | ⟨-, rfl⟩ | ⟨-, rfl⟩ <;>
    cases testnet <;> exact ⟨rfl, rfl⟩

/-- The address strings that the switch returns for one key under the two
networks differ. -/
theorem switch_EncodeAddress_ne (addressType : String) (pubKey : PublicKey)
    (pubKeyBytes : Bytes) (a b : Address)
    (ha : generateKeyPair.switch addressType MainNetParams pubKey pubKeyBytes = .ok a)
    (hb : generateKeyPair.switch addressType TestNet3Params pubKey pubKeyBytes = .ok b) :
    a.EncodeAddress ≠ b.EncodeAddress := by
  have hH : ∀ m, IsBytes (Hash160 m) := fun m => Ripemd160.ripemd160_isBytes _
  rcases switch_ok_shape _ _ _ _ _ ha with ⟨t, rfl⟩ | ⟨t, rfl⟩ | ⟨t, rfl⟩ | ⟨t, rfl⟩ <;>
    subst t <;>
    rcases switch_ok_shape _ _ _ _ _ hb with ⟨t, rfl⟩ | ⟨t, rfl⟩ | ⟨t, rfl⟩ | ⟨t, rfl⟩ <;>
    first
      | exact absurd t (by decide)
      | exact Base58.CheckEncode_ne _ _ _ _ (hH _) (hH _) (by decide) (by decide) (by decide)
      | exact encodeSegWitAddress_ne _ _ _ _

/-! ## The address line -/

/-- Every character of a Base58 string is in the alphabet. -/
theorem Base58.Encode_chars (b : Bytes) : ∀ c ∈ (Base58.Encode b).data, c ∈ Base58.alphabet := by
  intro c hc
  simp only [Base58.Encode, List.mem_append, List.mem_map] at hc
  rcases hc with hc | ⟨d, -, rfl⟩
  · rw [List.eq_of_mem_replicate hc]; decide
  · by_cases hd : d < 58
    · exact (Base58.alphabet_index d hd).1
    · have : Base58.alphabet.getD d '1' = '1' := by
        rw [List.getD_eq_default]
        have : Base58.alphabet.length = 58 := by decide
        omega
      rw [this]; decide

/-- A segwit address string contains the separator `1`. -/
theorem encodeSegWitAddress_separator (hrp : String) (v : Nat) (p : Bytes) :
    '1' ∈ (encodeSegWitAddress hrp v p).data := by
  simp [encodeSegWitAddress, Bech32.encode]

/-- No address is written as the text of the failure notice. -/
theorem EncodeAddress_ne_notice (address : Address) :
    address.EncodeAddress ≠ "不支持生成此类型地址" := by
  have hb : ∀ b, Base58.Encode b ≠ "不支持生成此类型地址" := by
    intro b h
    have hc := Base58.Encode_chars b '不' (by rw [h]; decide)
    exact absurd hc (by decide)
  have hs : ∀ hrp v p, encodeSegWitAddress hrp v p ≠ "不支持生成此类型地址" := by
    intro hrp v p h
    have hc := encodeSegWitAddress_separator hrp v p
    rw [h] at hc
    exact absurd hc (by decide)
  cases address with
  | AddressPubKeyHash h n => exact hb _
  | AddressScriptHash h n => exact hb _
  | AddressWitnessPubKeyHash hrp p => exact hs _ _ _
  | AddressTaproot hrp p => exact hs _ _ _
  | AddressWitnessScriptHash hrp p => exact hs _ _ _
  | AddressPubKey f k n => exact hb _

/-- The text between `地址: ` and the line end determines the line. -/
theorem addressLine_inj (x y : String) (h : "地址: " ++ x ++ "\n" = "地址: " ++ y ++ "\n") :
    x = y := by
  have hd := congrArg String.data h
  simp only [String.data_append] at hd
  have h1 := List.append_cancel_right hd
  have h2 := List.append_cancel_left h1
  cases x; cases y; simp_all

/-- The failure notice is not an address line. -/
theorem notice_not_address (address : Address) :
    "地址: 不支持生成此类型地址\n" ≠ "地址: " ++ address.EncodeAddress ++ "\n" := by
  intro h
  have : ("地址: 不支持生成此类型地址\n" : String) = "地址: " ++ "不支持生成此类型地址" ++ "\n" := by
    decide
  rw [this] at h
  exact EncodeAddress_ne_notice address (addressLine_inj _ _ h).symm

/-- Two strings that start with different characters differ. -/
theorem ne_of_head_ne (c d : Char) (s t u v : String) (hs : s.data = c :: u.data)
    (ht : t.data = d :: v.data) (hcd : c ≠ d) (x y : String) : s ++ x ≠ t ++ y := by
  intro h
  have hd := congrArg String.data h
  simp only [String.data_append, hs, ht, List.cons_append, List.cons.injEq] at hd
  exact hcd hd.1

/-- The header line of the import flow is not an address line. -/
theorem importHeader_not_address (x y : String) :
    "从私钥导入的比特币公钥（" ++ x ≠ "地址: " ++ y :=
  ne_of_head_ne '从' '地' _ _ "私钥导入的比特币公钥（" "址: " (by decide) (by decide) (by decide) _ _

/-- The public-key line is not an address line. -/
theorem publicKeyLine_not_address (x y : String) :
    "公钥 (压缩格式): " ++ x ≠ "地址: " ++ y :=
  ne_of_head_ne '公' '地' _ _ "钥 (压缩格式): " "址: " (by decide) (by decide) (by decide) _ _

/-- The events of an import that passed both guards. -/
theorem importPrivateKey_events (wifStr addressType : String) (params : Params) (wif : WIF)
    (hd : DecodeWIF wifStr = .ok wif) (hn : wif.netID = params.PrivateKeyID) :
    importPrivateKey wifStr addressType params
      = ⟨(match importPrivateKey.switch addressType params wif.PrivKey.PubKey
              wif.PrivKey.PubKey.SerializeCompressed with
          | .error addrErr =>
            [Event.log ("警告: 无法生成 " ++ addressType ++ " 类型的地址: " ++ addrErr)]
          | .ok _ => [])
        ++ [.stdout ("从私钥导入的比特币公钥（" ++ addressType ++ "，"
              ++ (if params.Name ≠ "mainnet" then "测试网" else "主网") ++ "）\n"),
            .stdout ("公钥 (压缩格式): "
              ++ hexString wif.PrivKey.PubKey.SerializeCompressed ++ "\n"),
            match importPrivateKey.switch addressType params wif.PrivKey.PubKey
              wif.PrivKey.PubKey.SerializeCompressed with
            | .ok address => .stdout ("地址: " ++ address.EncodeAddress ++ "\n")
            | .error _ => .stdout "地址: 不支持生成此类型地址\n"], none⟩ := by
  have hf : (wif.IsForNet params = false) = False := by simp [WIF.IsForNet, hn]
  cases hr : importPrivateKey.switch addressType params wif.PrivKey.PubKey
    wif.PrivKey.PubKey.SerializeCompressed <;>
    simp only [importPrivateKey, hd, hf, if_false, hr]

/-- After both guards, an address line is printed exactly when the switch
returns an address. -/
theorem printsAddress_iff (wifStr addressType : String) (params : Params) (wif : WIF)
    (hd : DecodeWIF wifStr = .ok wif) (hn : wif.netID = params.PrivateKeyID) :
    (importPrivateKey wifStr addressType params).printsAddress
      ↔ ∃ address, importPrivateKey.switch addressType params wif.PrivKey.PubKey
          wif.PrivKey.PubKey.SerializeCompressed = .ok address := by
  rw [Run.printsAddress, importPrivateKey_events _ _ _ _ hd hn]
  cases hr : importPrivateKey.switch addressType params wif.PrivKey.PubKey
      wif.PrivKey.PubKey.SerializeCompressed with
  | error e =>
    simp only [List.cons_append, List.nil_append, List.mem_cons, List.mem_singleton,
      List.not_mem_nil, or_false, reduceCtorEq, false_or, Event.stdout.injEq, exists_false,
      iff_false, not_exists]
    intro a h
    rcases h with h | h | h
    · rw [String.append_assoc, String.append_assoc] at h
      exact importHeader_not_address _ _ h.symm
    · rw [String.append_assoc, String.append_assoc] at h
      exact publicKeyLine_not_address _ _ h.symm
    · exact notice_not_address a h.symm
  | ok address =>
    simp only [List.nil_append, List.mem_cons, Event.stdout.injEq, List.mem_singleton,
      List.not_mem_nil, or_false, Except.ok.injEq, exists_eq', iff_true]
    exact ⟨address, Or.inr (Or.inr rfl)⟩

/-! ## The shape of Base58Check strings -/

/-- The most significant base-58 digit of a number between `58^k` and
`58^(k+1)`. -/
theorem digits_getLast_eq (k n : Nat) (h1 : 58 ^ k ≤ n) (h2 : n < 58 ^ (k + 1))
    (p : Nat.digits 58 n ≠ []) : (Nat.digits 58 n).getLast p = n / 58 ^ k := by
  induction k generalizing n with
  | zero =>
    have hn : n ≠ 0 := by simp at h1; omega
    have hd : Nat.digits 58 n = [n] := Nat.digits_of_lt 58 n hn (by simpa using h2)
    simp [hd]
  | succ k ih =>
    have hk : 0 < 58 ^ k := Nat.pow_pos (by norm_num)
    have h58 : 58 ≤ n := le_trans (by rw [pow_succ]; nlinarith) h1
    have hq1 : 58 ^ k ≤ n / 58 := by
      rw [Nat.le_div_iff_mul_le (by norm_num)]
      rw [pow_succ] at h1; exact h1
    have hq2 : n / 58 < 58 ^ (k + 1) := by
      rw [Nat.div_lt_iff_lt_mul (by norm_num)]
      rw [pow_succ] at h2; exact h2
    have hq : Nat.digits 58 (n / 58) ≠ [] :=
      Nat.digits_ne_nil_iff_ne_zero.mpr (by omega)
    rw [Nat.digits_getLast n (by norm_num) p hq, ih (n / 58) hq1 hq2 hq, Nat.div_div_eq_div_mul,
      pow_succ, Nat.mul_comm]

/-- The leading base-58 digit of a number `n` with `lo * 58^k ≤ n < hi * 58^k`. -/
theorem digits_reverse_head (n k lo hi : Nat) (hlo : 1 ≤ lo) (hhi : hi ≤ 58)
    (h1 : lo * 58 ^ k ≤ n) (h2 : n < hi * 58 ^ k) :
    ∃ d rest, (Nat.digits 58 n).reverse = d :: rest ∧ lo ≤ d ∧ d < hi := by
  have hk : 0 < 58 ^ k := Nat.pow_pos (by norm_num)
  have hn : n ≠ 0 := by
    have : 58 ^ k ≤ lo * 58 ^ k := Nat.le_mul_of_pos_left _ hlo
    omega
  have hne : Nat.digits 58 n ≠ [] := Nat.digits_ne_nil_iff_ne_zero.mpr hn
  have hlast := digits_getLast_eq k n (le_trans (Nat.le_mul_of_pos_left _ hlo) h1)
    (lt_of_lt_of_le h2 (by rw [pow_succ, Nat.mul_comm (58 ^ k)]; exact Nat.mul_le_mul_right _ hhi)) hne
  refine ⟨n / 58 ^ k, (Nat.digits 58 n).dropLast.reverse, ?_, ?_, ?_⟩
  · conv_lhs => rw [← List.dropLast_append_getLast hne, hlast]
    simp
  · exact (Nat.le_div_iff_mul_le hk).mpr h1
  · exact (Nat.div_lt_iff_lt_mul hk).mpr h2

/-- The value of a byte string is below `256` to the power of its length. -/
theorem bytesToNat_lt (b : Bytes) (hb : IsBytes b) : bytesToNat b < 256 ^ b.length := by
  rw [bytesToNat_eq]
  have := Nat.ofDigits_lt_base_pow_length (b := 256) (l := b.reverse) (by norm_num)
    (fun x hx => hb x (List.mem_reverse.mp hx))
  simpa using this

/-- The value of a byte string with its first byte singled out. -/
theorem bytesToNat_cons (v : Nat) (b : Bytes) :
    bytesToNat (v :: b) = v * 256 ^ b.length + bytesToNat b := by
  have h1 := foldl_eq_ofDigits 256 b v
  have h0 := foldl_eq_ofDigits 256 b 0
  simp only [bytesToNat, List.foldl_cons, Nat.zero_mul, Nat.zero_add] at *
  omega

/-- The first character of a Base58 string of 25 bytes, by its first byte: `1`
for `0x00`, `3` for `0x05`, `m` or `n` for `0x6f`, `2` for `0xc4`. -/
theorem Base58.Encode_head (v : Nat) (p : Bytes) (hp : IsBytes p) (hl : p.length = 24)
    (hv : v = 0x00 ∨ v = 0x05 ∨ v = 0x6f ∨ v = 0xc4) :
    ∃ c rest, (Base58.Encode (v :: p)).data = c :: rest
      ∧ (c = '1' ∨ c = '3' ∨ c = 'm' ∨ c = 'n' ∨ c = '2') := by
  have hlt := bytesToNat_lt p hp
  rw [hl] at hlt
  have hn := bytesToNat_cons v p
  rw [hl] at hn
  have hdig : digitsAux 58 (bytesToNat (v :: p)) (bytesToNat (v :: p)) []
      = (Nat.digits 58 (bytesToNat (v :: p))).reverse := by
    simp [digitsAux_eq 58 (by norm_num) _ _ [] le_rfl]
  have key : ∀ k lo hi, v ≠ 0 → 1 ≤ lo → hi ≤ 58 → lo * 58 ^ k ≤ v * 256 ^ 24 →
      (v + 1) * 256 ^ 24 ≤ hi * 58 ^ k →
      ∃ d rest, (Base58.Encode (v :: p)).data = Base58.alphabet.getD d '1' :: rest
        ∧ lo ≤ d ∧ d < hi := by
    intro k lo hi hv0 hlo hhi h1 h2
    obtain ⟨d, rest, hd, hd1, hd2⟩ := digits_reverse_head (bytesToNat (v :: p)) k lo hi hlo hhi
      (by omega) (by nlinarith)
    refine ⟨d, rest.map fun d => Base58.alphabet.getD d '1', ?_, hd1, hd2⟩
    simp [Base58.Encode, Base58.leading, hv0, hdig, hd]
  rcases hv with rfl | rfl | rfl | rfl
  · refine ⟨'1', List.replicate (Base58.leading 0 p) '1'
        ++ (digitsAux 58 (bytesToNat (0 :: p)) (bytesToNat (0 :: p)) []).map
          (fun d => Base58.alphabet.getD d '1'), ?_, Or.inl rfl⟩
    simp only [Base58.Encode, Base58.leading, if_true, List.replicate_succ, List.cons_append]
  · obtain ⟨d, rest, hd, hd1, hd2⟩ := key 33 2 3 (by norm_num) (by norm_num) (by norm_num)
      (by norm_num) (by norm_num)
    have : d = 2 := by omega
    subst this
    exact ⟨_, rest, hd, Or.inr (Or.inl (by decide))⟩
  · obtain ⟨d, rest, hd, hd1, hd2⟩ := key 33 44 46 (by norm_num) (by norm_num) (by norm_num)
      (by norm_num) (by norm_num)
    have : d = 44 ∨ d = 45 := by omega
    rcases this with rfl | rfl
    · exact ⟨_, rest, hd, Or.inr (Or.inr (Or.inl (by decide)))⟩
    · exact ⟨_, rest, hd, Or.inr (Or.inr (Or.inr (Or.inl (by decide))))⟩
  · obtain ⟨d, rest, hd, hd1, hd2⟩ := key 34 1 2 (by norm_num) (by norm_num) (by norm_num)
      (by norm_num) (by norm_num)
    have : d = 1 := by omega
    subst this
    exact ⟨_, rest, hd, Or.inr (Or.inr (Or.inr (Or.inr (by decide))))⟩

/-- The leading elements are among the elements. -/
theorem Base58.leading_le {α : Type} [DecidableEq α] (z : α) (l : List α) :
    Base58.leading z l ≤ l.length := by
  induction l with
  | nil => simp [Base58.leading]
  | cons x xs ih =>
    simp only [Base58.leading, List.length_cons]
    split_ifs <;> omega

/-- A string of Base58 characters takes one byte a character. -/
theorem utf8ByteSize_of_alphabet (cs : List Char) (h : ∀ c ∈ cs, c ∈ Base58.alphabet) :
    (String.mk cs).utf8ByteSize = cs.length := by
  have h1 : ∀ c ∈ Base58.alphabet, c.utf8Size = 1 := by decide
  rw [String.utf8ByteSize_mk]
  induction cs with
  | nil => rfl
  | cons c cs ih =>
    rw [String.utf8Len_cons, ih fun x hx => h x (List.mem_cons_of_mem _ hx),
      h1 c (h c (List.mem_cons_self _ _)), List.length_cons]

/-- A Base58 string of 25 bytes has at most 60 bytes. -/
theorem Base58.Encode_utf8ByteSize (b : Bytes) (hb : IsBytes b) (hl : b.length = 25) :
    (Base58.Encode b).utf8ByteSize ≤ 60 := by
  have hs : Base58.Encode b = String.mk (Base58.Encode b).data := rfl
  rw [hs, utf8ByteSize_of_alphabet _ (Base58.Encode_chars b)]
  have hdig : digitsAux 58 (bytesToNat b) (bytesToNat b) []
      = (Nat.digits 58 (bytesToNat b)).reverse := by
    simp [digitsAux_eq 58 (by norm_num) _ _ [] le_rfl]
  simp only [Base58.Encode, List.length_append, List.length_replicate, List.length_map, hdig,
    List.length_reverse]
  have h1 := Base58.leading_le 0 b
  have hlt := bytesToNat_lt b hb
  rw [hl] at hlt h1
  have h2 : (Nat.digits 58 (bytesToNat b)).length ≤ 35 := by
    by_cases hn : bytesToNat b = 0
    · simp [hn]
    · have hle := Nat.base_pow_length_digits_le 58 (bytesToNat b) (by norm_num) hn
      have h3 : 58 ^ (Nat.digits 58 (bytesToNat b)).length < 58 ^ 36 := by
        calc 58 ^ (Nat.digits 58 (bytesToNat b)).length ≤ 58 * bytesToNat b := hle
          _ < 58 * 256 ^ 25 := Nat.mul_lt_mul_of_pos_left hlt (by norm_num)
          _ ≤ 58 ^ 36 := by norm_num
      have := (Nat.pow_lt_pow_iff_right (by norm_num : 1 < 58)).mp h3
      omega
  omega

/-- `base58.CheckDecode` inverts `base58.CheckEncode`. -/
theorem Base58.CheckDecode_CheckEncode (h : Bytes) (v : Nat) (hh : IsBytes h) (hv : v < 256) :
    Base58.CheckDecode (Base58.CheckEncode h v) = .ok (h, v) := by
  have hb : IsBytes ((v :: h) ++ Base58.checksum (v :: h)) := by
    intro x hx
    simp only [List.cons_append, List.mem_cons, List.mem_append] at hx
    rcases hx with rfl | hx | hx
    · exact hv
    · exact hh x hx
    · exact Base58.checksum_isBytes _ x hx
  have hlen : ((v :: h) ++ Base58.checksum (v :: h)).length - 4 = (v :: h).length := by
    simp [Base58.checksum_length]
  have hc : v :: h ++ Base58.checksum (v :: h) = (v :: h) ++ Base58.checksum (v :: h) := rfl
  simp only [Base58.CheckDecode, Base58.CheckEncode, hc, Base58.Decode_Encode _ hb, hlen,
    List.take_left' rfl, List.drop_left' rfl]
  simp [Base58.checksum_length]

/-- The last occurrence of a character that does not occur after a position. -/
theorem lastIndexOf_append (c : Char) (pre tail : List Char) (ht : c ∉ tail) :
    lastIndexOf c (pre ++ c :: tail) = some pre.length := by
  have hnone : ∀ l : List Char, c ∉ l → lastIndexOf c l = none := by
    intro l hl
    induction l with
    | nil => rfl
    | cons x xs ih =>
      simp only [List.mem_cons, not_or] at hl
      simp [lastIndexOf, ih hl.2, Ne.symm hl.1]
  induction pre with
  | nil => simp [lastIndexOf, hnone tail ht]
  | cons x xs ih => simp [lastIndexOf, ih]

/-! ## Decoding the printed addresses -/

/-- A string that starts with one of the first characters of Base58Check
addresses has no registered segwit prefix. -/
theorem not_segwit_of_head (c : Char) (rest : List Char)
    (hc : c = '1' ∨ c = '3' ∨ c = 'm' ∨ c = 'n' ∨ c = '2') (i : Nat) :
    IsBech32SegwitPrefix (String.mk ((c :: rest).take (i + 1))) = false := by
  simp only [IsBech32SegwitPrefix, toLower, List.take_succ_cons, List.map_cons,
    bech32SegwitPrefixes, decide_eq_false_iff_not, List.mem_cons, List.mem_singleton,
    List.not_mem_nil, or_false]
  intro h
  have hd : ∀ s : String, String.mk (c.toLower :: List.map Char.toLower (List.take i rest)) = s →
      s.data.head? = some c.toLower := by
    intro s hs; rw [← hs]; rfl
  rcases hc with rfl | rfl | rfl | rfl | rfl <;>
    rcases h with h | h | h | h <;> exact absurd (hd _ h) (by decide)

/-- `btcutil.DecodeAddress` on a Base58Check string of a 20-byte hash under one
of the four version bytes. -/
theorem DecodeAddress_CheckEncode (h : Bytes) (v : Nat) (net : Params) (hh : IsBytes h)
    (hl : h.length = 20) (hv : v = 0x00 ∨ v = 0x05 ∨ v = 0x6f ∨ v = 0xc4) :
    DecodeAddress (Base58.CheckEncode h v) net
      = if v = net.PubKeyHashAddrID ∧ v = net.ScriptHashAddrID then .error "address collision"
        else if v = net.PubKeyHashAddrID then .ok (.AddressPubKeyHash h v)
        else if v = net.ScriptHashAddrID then .ok (.AddressScriptHash h v)
        else .error "unknown address type" := by
  have hv256 : v < 256 := by rcases hv with rfl | rfl | rfl | rfl <;> norm_num
  have hp : IsBytes (h ++ Base58.checksum (v :: h)) := by
    intro x hx
    rcases List.mem_append.mp hx with hx | hx
    · exact hh x hx
    · exact Base58.checksum_isBytes _ x hx
  have hpl : (h ++ Base58.checksum (v :: h)).length = 24 := by
    simp [hl, Base58.checksum_length]
  obtain ⟨c, rest, hdata, hc⟩ := Base58.Encode_head v _ hp hpl hv
  have hfull : IsBytes (v :: (h ++ Base58.checksum (v :: h))) := by
    intro x hx
    rcases List.mem_cons.mp hx with rfl | hx
    · exact hv256
    · exact hp x hx
  have hsize := Base58.Encode_utf8ByteSize _ hfull (by simp [hpl])
  have hce : Base58.CheckEncode h v = Base58.Encode (v :: (h ++ Base58.checksum (v :: h))) := rfl
  have hseg : DecodeAddress.segwit (Base58.CheckEncode h v) = none := by
    unfold DecodeAddress.segwit
    rw [hce, hdata]
    cases lastIndexOf '1' (c :: rest) with
    | none => rfl
    | some i => simp only [not_segwit_of_head c rest hc i, Bool.false_eq_true, and_false, if_false]
  have h66 : ¬((Base58.CheckEncode h v).utf8ByteSize = 130
      ∨ (Base58.CheckEncode h v).utf8ByteSize = 66) := by rw [hce]; omega
  simp only [DecodeAddress, hseg, if_neg h66, DecodeAddress.base58,
    Base58.CheckDecode_CheckEncode h v hh hv256, hl, if_true, ne_eq, not_true_eq_false, if_false]

/-- The characters of 5-bit values are not the separator. -/
theorem charset_no_separator (ds : List Nat) :
    '1' ∉ ds.map fun d => Bech32.charset.getD d 'q' := by
  intro h
  obtain ⟨d, -, hd⟩ := List.mem_map.mp h
  by_cases hlt : d < 32
  · have : ∀ d, d < 32 → Bech32.charset.getD d 'q' ≠ '1' := by decide
    exact this d hlt hd
  · rw [List.getD_eq_default _ _ (by have : Bech32.charset.length = 32 := by decide
                                     omega)] at hd
    exact absurd hd (by decide)

/-- What `btcutil.DecodeAddress` can return for a segwit address string that was
built for the human-readable part of one of the two networks: an error, or a
segwit address with that human-readable part. -/
theorem DecodeAddress_segwit (testnet : Bool) (v : Nat) (p : Bytes) (net : Params)
    (address : Address)
    (h : DecodeAddress (encodeSegWitAddress (toLower (selectParams testnet).Bech32HRPSegwit) v p)
      net = .ok address) :
    ∃ prog, address = .AddressWitnessPubKeyHash (selectParams testnet).Bech32HRPSegwit prog
      ∨ address = .AddressTaproot (selectParams testnet).Bech32HRPSegwit prog
      ∨ address = .AddressWitnessScriptHash (selectParams testnet).Bech32HRPSegwit prog := by
  have hdata : ∃ h1 h2 tail, '1' ∉ tail
      ∧ (encodeSegWitAddress (toLower (selectParams testnet).Bech32HRPSegwit) v p).data
          = [h1, h2] ++ '1' :: tail
      ∧ toLower (String.mk [h1, h2]) = (selectParams testnet).Bech32HRPSegwit
      ∧ (String.mk [h1, h2]).utf8ByteSize = 2
      ∧ IsBech32SegwitPrefix (String.mk [h1, h2, '1']) = true := by
    cases testnet
    · exact ⟨'b', 'c', _, charset_no_separator _, rfl, by decide, by decide, by decide⟩
    · exact ⟨'t', 'b', _, charset_no_separator _, rfl, by decide, by decide, by decide⟩
  obtain ⟨h1, h2, tail, htail, hd, hlow, hsz, hpre⟩ := hdata
  have hseg : DecodeAddress.segwit
      (encodeSegWitAddress (toLower (selectParams testnet).Bech32HRPSegwit) v p)
      = some (DecodeAddress.segwitAddress
          (encodeSegWitAddress (toLower (selectParams testnet).Bech32HRPSegwit) v p)
          (String.mk [h1, h2])) := by
    unfold DecodeAddress.segwit
    rw [hd, lastIndexOf_append '1' [h1, h2] tail htail]
    simp only [List.length_cons, List.length_nil, Nat.zero_add, Nat.reduceAdd]
    have ht : List.take 3 ([h1, h2] ++ '1' :: tail) = [h1, h2, '1'] := rfl
    have ht2 : List.take 2 ([h1, h2] ++ '1' :: tail) = [h1, h2] := rfl
    rw [ht, ht2, hsz, hpre]
    simp
  simp only [DecodeAddress, hseg, DecodeAddress.segwitAddress, newAddressWitnessScriptHash,
    hlow] at h
  split at h
  · cases h
  · rename_i witnessVer witnessProg _
    split_ifs at h <;> (try cases h) <;>
      first
        | exact ⟨_, Or.inl rfl⟩
        | exact ⟨_, Or.inr (Or.inl rfl)⟩
        | exact ⟨_, Or.inr (Or.inr rfl)⟩

/-- The first character of a segwit string is the first character of the
human-readable part of its network. -/
theorem encodeSegWitAddress_head (testnet : Bool) (v : Nat) (p : Bytes) :
    ∃ rest, (encodeSegWitAddress (selectParams testnet).Bech32HRPSegwit v p).data
      = (if testnet then 't' else 'b') :: rest := by
  cases testnet
  · exact ⟨_, rfl⟩
  · exact ⟨_, rfl⟩

/-- Lower-casing the human-readable part of either network changes nothing. -/
theorem toLower_hrp (testnet : Bool) :
    toLower (selectParams testnet).Bech32HRPSegwit = (selectParams testnet).Bech32HRPSegwit := by
  cases testnet <;> decide

/-- The text of an address that the switch returns. -/
theorem switch_TextOf (testnet : Bool) (addressType : String) (pubKey : PublicKey)
    (pubKeyBytes : Bytes) (address : Address)
    (h : generateKeyPair.switch addressType (selectParams testnet) pubKey pubKeyBytes
      = .ok address) : TextOf address.EncodeAddress (selectParams testnet) := by
  have hH : ∀ m, IsBytes (Hash160 m) := fun m => Ripemd160.ripemd160_isBytes _
  rcases switch_ok_shape _ _ _ _ _ h with ⟨-, rfl⟩ | ⟨-, rfl⟩ | ⟨-, rfl⟩ | ⟨-, rfl⟩
  · exact Or.inl ⟨_, _, rfl, hH _, Hash160_length _, Or.inl rfl⟩
  · exact Or.inl ⟨_, _, rfl, hH _, Hash160_length _, Or.inr rfl⟩
  · exact Or.inr ⟨0, _, by rw [toLower_hrp]; rfl⟩
  · exact Or.inr ⟨1, _, by rw [toLower_hrp]; rfl⟩

/-- The text of a well-formed address that belongs to a network. -/
theorem IsForNet_TextOf (testnet : Bool) (b : Address) (hb : b.WellFormed)
    (hn : b.IsForNet (selectParams testnet) = true) :
    TextOf b.EncodeAddress (selectParams testnet) := by
  have hH : ∀ m, IsBytes (Hash160 m) := fun m => Ripemd160.ripemd160_isBytes _
  cases b with
  | AddressPubKeyHash h n =>
    exact Or.inl ⟨h, n, rfl, hb.1, hb.2, Or.inl (by simpa [Address.IsForNet] using hn)⟩
  | AddressScriptHash h n =>
    exact Or.inl ⟨h, n, rfl, hb.1, hb.2, Or.inr (by simpa [Address.IsForNet] using hn)⟩
  | AddressWitnessPubKeyHash hrp p =>
    have : hrp = (selectParams testnet).Bech32HRPSegwit := by simpa [Address.IsForNet] using hn
    exact Or.inr ⟨0, p, by rw [this]; rfl⟩
  | AddressTaproot hrp p =>
    have : hrp = (selectParams testnet).Bech32HRPSegwit := by simpa [Address.IsForNet] using hn
    exact Or.inr ⟨1, p, by rw [this]; rfl⟩
  | AddressWitnessScriptHash hrp p =>
    have : hrp = (selectParams testnet).Bech32HRPSegwit := by simpa [Address.IsForNet] using hn
    exact Or.inr ⟨0, p, by rw [this]; rfl⟩
  | AddressPubKey f k n =>
    exact Or.inl ⟨_, n, rfl, hH _, Hash160_length _,
      Or.inl (by simpa [Address.IsForNet] using hn)⟩

/-- The first character of a Base58Check address text of either network. -/
theorem CheckEncode_head (testnet : Bool) (h : Bytes) (v : Nat) (hh : IsBytes h)
    (hl : h.length = 20)
    (hv : v = (selectParams testnet).PubKeyHashAddrID ∨ v = (selectParams testnet).ScriptHashAddrID) :
    ∃ c rest, (Base58.CheckEncode h v).data = c :: rest
      ∧ (c = '1' ∨ c = '3' ∨ c = 'm' ∨ c = 'n' ∨ c = '2') := by
  have hp : IsBytes (h ++ Base58.checksum (v :: h)) := by
    intro x hx
    rcases List.mem_append.mp hx with hx | hx
    · exact hh x hx
    · exact Base58.checksum_isBytes _ x hx
  have hpl : (h ++ Base58.checksum (v :: h)).length = 24 := by
    simp [hl, Base58.checksum_length]
  apply Base58.Encode_head v _ hp hpl
  cases testnet
  · rcases hv with rfl | rfl
    · exact Or.inl rfl
    · exact Or.inr (Or.inl rfl)
  · rcases hv with rfl | rfl
    · exact Or.inr (Or.inr (Or.inl rfl))
    · exact Or.inr (Or.inr (Or.inr rfl))

/-- The address texts of the two networks are disjoint. -/
theorem TextOf_disjoint (testnet : Bool) (s : String) (h1 : TextOf s (selectParams testnet))
    (h2 : TextOf s (selectParams (!testnet))) : False := by
  rcases h1 with ⟨h, v, rfl, hh, hl, hv⟩ | ⟨v, p, rfl⟩
  · rcases h2 with ⟨h', v', he, hh', hl', hv'⟩ | ⟨v', p', he⟩
    · have hv256 : v < 256 ∧ v' < 256 ∧ v ≠ v' := by
        cases testnet <;> rcases hv with rfl | rfl <;> rcases hv' with rfl | rfl <;> decide
      exact Base58.CheckEncode_ne h h' v v' hh hh' hv256.1 hv256.2.1 hv256.2.2 he
    · obtain ⟨c, rest, hd, hc⟩ := CheckEncode_head testnet h v hh hl hv
      obtain ⟨rest', hd'⟩ := encodeSegWitAddress_head (!testnet) v' p'
      rw [he, hd'] at hd
      simp only [List.cons.injEq] at hd
      cases testnet <;> rcases hc with rfl | rfl | rfl | rfl | rfl <;>
        exact absurd hd.1 (by decide)
  · obtain ⟨rest, hd⟩ := encodeSegWitAddress_head testnet v p
    rcases h2 with ⟨h', v', he, hh', hl', hv'⟩ | ⟨v', p', he⟩
    · obtain ⟨c, rest', hd', hc⟩ := CheckEncode_head (!testnet) h' v' hh' hl' hv'
      rw [he, hd'] at hd
      simp only [List.cons.injEq] at hd
      cases testnet <;> rcases hc with rfl | rfl | rfl | rfl | rfl <;>
        exact absurd hd.1 (by decide)
    · obtain ⟨rest', hd'⟩ := encodeSegWitAddress_head (!testnet) v' p'
      rw [he, hd'] at hd
      simp only [List.cons.injEq] at hd
      cases testnet <;> exact absurd hd.1 (by decide)

/-- An address that the switch returns is refused, read for the other network:
`btcutil.DecodeAddress` fails on its text or returns an address that is not
`IsForNet` that network. -/
theorem switch_not_valid (testnet : Bool) (addressType : String) (pubKey : PublicKey)
    (pubKeyBytes : Bytes) (address : Address)
    (h : generateKeyPair.switch addressType (selectParams testnet) pubKey pubKeyBytes
      = .ok address) :
    validAddressFor address.EncodeAddress (selectParams (!testnet)) = false := by
  have hH : ∀ m, IsBytes (Hash160 m) := fun m => Ripemd160.ripemd160_isBytes _
  have hseg : ∀ v p, validAddressFor
      (encodeSegWitAddress (toLower (selectParams testnet).Bech32HRPSegwit) v p)
      (selectParams (!testnet)) = false := by
    intro v p
    unfold validAddressFor
    cases hd : DecodeAddress
      (encodeSegWitAddress (toLower (selectParams testnet).Bech32HRPSegwit) v p)
      (selectParams (!testnet)) with
    | error e => rfl
    | ok b =>
      obtain ⟨prog, rfl | rfl | rfl⟩ := DecodeAddress_segwit testnet v p _ b hd <;>
        cases testnet <;> rfl
  rcases switch_ok_shape _ _ _ _ _ h with ⟨-, rfl⟩ | ⟨-, rfl⟩ | ⟨-, rfl⟩ | ⟨-, rfl⟩
  · unfold validAddressFor
    simp only [Address.EncodeAddress]
    rw [DecodeAddress_CheckEncode _ _ _ (hH _) (Hash160_length _)
      (by cases testnet <;> simp [selectParams, MainNetParams, TestNet3Params])]
    cases testnet <;> rfl
  · unfold validAddressFor
    simp only [Address.EncodeAddress]
    rw [DecodeAddress_CheckEncode _ _ _ (hH _) (Hash160_length _)
      (by cases testnet <;> simp [selectParams, MainNetParams, TestNet3Params])]
    cases testnet <;> rfl
  · exact hseg 0 _
  · exact hseg 1 _

/-- A Base58Check address that the switch returns decodes, read for its own
network, to the address itself. -/
theorem switch_base58_valid (testnet : Bool) (addressType : String) (pubKey : PublicKey)
    (pubKeyBytes : Bytes) (address : Address)
    (h : generateKeyPair.switch addressType (selectParams testnet) pubKey pubKeyBytes
      = .ok address) (ht : addressType = "p2pkh" ∨ addressType = "p2sh") :
    DecodeAddress address.EncodeAddress (selectParams testnet) = .ok address := by
  have hH : ∀ m, IsBytes (Hash160 m) := fun m => Ripemd160.ripemd160_isBytes _
  rcases switch_ok_shape _ _ _ _ _ h with ⟨-, rfl⟩ | ⟨-, rfl⟩ | ⟨t, rfl⟩ | ⟨t, rfl⟩
  · simp only [Address.EncodeAddress]
    rw [DecodeAddress_CheckEncode _ _ _ (hH _) (Hash160_length _)
      (by cases testnet <;> simp [selectParams, MainNetParams, TestNet3Params])]
    cases testnet <;> rfl
  · simp only [Address.EncodeAddress]
    rw [DecodeAddress_CheckEncode _ _ _ (hH _) (Hash160_length _)
      (by cases testnet <;> simp [selectParams, MainNetParams, TestNet3Params])]
    cases testnet <;> rfl
  · subst t; rcases ht with ht | ht <;> exact absurd ht (by decide)
  · subst t; rcases ht with ht | ht <;> exact absurd ht (by decide)

/-- C9. The parameters `main` selects with and without `-testnet` differ in the
P2PKH version byte, the P2SH version byte, the Bech32 human-readable part and
the WIF private-key byte, and the Base58Check version bytes differ across the
two kinds as well.  Hence, for every key and address type, an address that the
switch produces under one network belongs to that network and not to the other
(`IsForNet`); its printed text is not a valid address of the other network
(`btcutil.DecodeAddress` configured for the other network fails on it, or
returns an address that is not `IsForNet` that network); its text differs from
the text of every address of the other network, of any kind and any key or
hash; a Base58Check address is a valid address of its own network.  A WIF built
for one network is not `IsForNet` the other, and importing it under the other
network ends with the network-mismatch message. -/
theorem networks_disjoint :
    (selectParams false = MainNetParams ∧ selectParams true = TestNet3Params)
    ∧ (MainNetParams.PubKeyHashAddrID ≠ TestNet3Params.PubKeyHashAddrID
        ∧ MainNetParams.ScriptHashAddrID ≠ TestNet3Params.ScriptHashAddrID
        ∧ MainNetParams.Bech32HRPSegwit ≠ TestNet3Params.Bech32HRPSegwit
        ∧ MainNetParams.PrivateKeyID ≠ TestNet3Params.PrivateKeyID
        ∧ MainNetParams.PubKeyHashAddrID ≠ TestNet3Params.ScriptHashAddrID
        ∧ MainNetParams.ScriptHashAddrID ≠ TestNet3Params.PubKeyHashAddrID)
    ∧ (∀ (testnet : Bool) (addressType : String) (pubKey : PublicKey) (pubKeyBytes : Bytes)
        (address : Address),
        (generateKeyPair.switch addressType (selectParams testnet) pubKey pubKeyBytes
            = .ok address
          ∨ importPrivateKey.switch addressType (selectParams testnet) pubKey pubKeyBytes
            = .ok address) →
        address.IsForNet (selectParams testnet) = true
          ∧ address.IsForNet (selectParams (!testnet)) = false
          ∧ validAddressFor address.EncodeAddress (selectParams (!testnet)) = false
          ∧ (∀ b : Address, b.WellFormed → b.IsForNet (selectParams (!testnet)) = true →
              address.EncodeAddress ≠ b.EncodeAddress)
          ∧ ((addressType = "p2pkh" ∨ addressType = "p2sh") →
              validAddressFor address.EncodeAddress (selectParams testnet) = true))
    ∧ (∀ (addressType : String) (pubKey : PublicKey) (pubKeyBytes : Bytes) (a b : Address),
        generateKeyPair.switch addressType MainNetParams pubKey pubKeyBytes = .ok a →
        generateKeyPair.switch addressType TestNet3Params pubKey pubKeyBytes = .ok b →
        a.EncodeAddress ≠ b.EncodeAddress)
    ∧ (∀ (testnet : Bool) (k : PrivateKey) (wif : WIF),
        NewWIF k (selectParams testnet) true = .ok wif →
        wif.IsForNet (selectParams testnet) = true
          ∧ wif.IsForNet (selectParams (!testnet)) = false)
    ∧ (∀ (testnet : Bool) (k : PrivateKey) (addressType : String), k.Valid →
        importPrivateKey (WIF.mk k true (selectParams testnet).PrivateKeyID).String addressType
            (selectParams (!testnet))
          = ⟨[.log "私钥网络类型不匹配"], some 1⟩) := by
  refine ⟨⟨rfl, rfl⟩, ⟨by decide, by decide, by decide, by decide, by decide, by decide⟩,
    ?_, ?_, ?_, ?_⟩
  · intro testnet addressType pubKey pubKeyBytes address h
    have hg : generateKeyPair.switch addressType (selectParams testnet) pubKey pubKeyBytes
        = .ok address := by
      rcases h with h | h
      · exact h
      · rw [switch_eq] at h; exact h
    obtain ⟨h1, h2⟩ := switch_IsForNet _ _ _ _ _ hg
    refine ⟨h1, h2, switch_not_valid _ _ _ _ _ hg, ?_, ?_⟩
    · intro b hb hn he
      have ht := IsForNet_TextOf (!testnet) b hb hn
      rw [← he] at ht
      exact TextOf_disjoint testnet _ (switch_TextOf _ _ _ _ _ hg) ht
    · intro ht
      simp only [validAddressFor, switch_base58_valid _ _ _ _ _ hg ht, h1]
  · exact switch_EncodeAddress_ne
  · intro testnet k wif h
    cases (Except.ok.inj h)
    cases testnet <;> exact ⟨rfl, rfl⟩
  · intro testnet k addressType hk
    have hd := DecodeWIF_String ⟨k, true, (selectParams testnet).PrivateKeyID⟩
      (selectParams_PrivateKeyID_lt testnet) hk.2
    have hn : (WIF.mk k true (selectParams testnet).PrivateKeyID).IsForNet
        (selectParams (!testnet)) = false := by
      cases testnet <;> rfl
    simp [importPrivateKey, hd, hn, logFatal]

/-- C9 at the private key 153: its mainnet P2WPKH and P2SH addresses are valid
mainnet addresses and are not valid testnet addresses; its mainnet WIF is
refused under testnet. -/
theorem networks_disjoint_witness :
    validAddressFor "bc1qzx9da82ucfgndlnx9fzvwe0jj7535nmqx0h98a" TestNet3Params = false
      ∧ validAddressFor "bc1qzx9da82ucfgndlnx9fzvwe0jj7535nmqx0h98a" MainNetParams = true
      ∧ validAddressFor "39kxB24rMFs6ZWiR9D4RBpN4VV5C1DXsn3" TestNet3Params = false
      ∧ validAddressFor "39kxB24rMFs6ZWiR9D4RBpN4VV5C1DXsn3" MainNetParams = true
      ∧ importPrivateKey "KwDiBf89QgGbjEhKnhXJuH7LrciVrZi3qYjgd9M7rFU8MZejxwYf" "p2tr"
          TestNet3Params = ⟨[.log "私钥网络类型不匹配"], some 1⟩ := by
  have hw := (networks_disjoint.2.2.1 false "p2wpkh" (PrivateKey.mk 153).PubKey
    (PrivateKey.mk 153).PubKey.SerializeCompressed _
    (Or.inl (switch_recognized _ _ _).2.2.1)).2.2.1
  have hs := (networks_disjoint.2.2.1 false "p2sh" (PrivateKey.mk 153).PubKey
    (PrivateKey.mk 153).PubKey.SerializeCompressed _
    (Or.inl (switch_recognized _ _ _).2.1)).2.2
  have ew : (Address.AddressWitnessPubKeyHash (toLower (selectParams false).Bech32HRPSegwit)
      (Hash160 (PrivateKey.mk 153).PubKey.SerializeCompressed)).EncodeAddress
      = "bc1qzx9da82ucfgndlnx9fzvwe0jj7535nmqx0h98a" := by decide!
  have es : (Address.AddressScriptHash
      (Hash160 (0x00 :: 0x14 :: Hash160 (PrivateKey.mk 153).PubKey.SerializeCompressed))
      (selectParams false).ScriptHashAddrID).EncodeAddress
      = "39kxB24rMFs6ZWiR9D4RBpN4VV5C1DXsn3" := by decide!
  have ek : (WIF.mk ⟨153⟩ true (selectParams false).PrivateKeyID).String
      = "KwDiBf89QgGbjEhKnhXJuH7LrciVrZi3qYjgd9M7rFU8MZejxwYf" := by decide!
  rw [ew] at hw
  rw [es] at hs
  exact ⟨hw, by decide!, hs.1, hs.2.2 (Or.inr rfl),
    ek ▸ networks_disjoint.2.2.2.2.2 false ⟨153⟩ "p2tr" (by decide)⟩

/-! ## The claims about the flows -/

/-- C3. For every address-type string other than `p2pkh`, `p2sh`, `p2wpkh`,
`p2tr` (exact match), both switches end with the unsupported-address-type
error; `generateKeyPair` and `importPrivateKey` return normally (no exit), log
the warning, still print the header, the key material already computed (the WIF
private key in the generate flow, the compressed public key in both), and print
the failure notice in place of an address. -/
theorem unknown_tag_reported (addressType : String) (params : Params)
    (h1 : addressType ≠ "p2pkh") (h2 : addressType ≠ "p2sh") (h3 : addressType ≠ "p2wpkh")
    (h4 : addressType ≠ "p2tr") :
    (∀ pubKey pubKeyBytes,
        generateKeyPair.switch addressType params pubKey pubKeyBytes
          = .error ("未知的地址类型: " ++ addressType)
        ∧ importPrivateKey.switch addressType params pubKey pubKeyBytes
          = .error ("未知的地址类型: " ++ addressType))
    ∧ (∀ privateKey : PrivateKey,
        generateKeyPair addressType params (.ok privateKey)
          = ⟨[.log ("警告: 无法生成 " ++ addressType ++ " 类型的地址: "
                ++ ("未知的地址类型: " ++ addressType)),
              .stdout ("生成了新的比特币密钥对（" ++ addressType ++ "，"
                ++ (if params.Name ≠ "mainnet" then "测试网" else "主网") ++ "）\n"),
              .stdout ("私钥 (WIF格式): "
                ++ (WIF.mk privateKey true params.PrivateKeyID).String ++ "\n"),
              .stdout ("公钥 (压缩格式): "
                ++ hexString privateKey.PubKey.SerializeCompressed ++ "\n"),
              .stdout "地址: 不支持生成此类型地址\n"],
             none⟩)
    ∧ (∀ (wifStr : String) (wif : WIF), DecodeWIF wifStr = .ok wif →
        wif.IsForNet params = true →
        importPrivateKey wifStr addressType params
          = ⟨[.log ("警告: 无法生成 " ++ addressType ++ " 类型的地址: "
                ++ ("未知的地址类型: " ++ addressType)),
              .stdout ("从私钥导入的比特币公钥（" ++ addressType ++ "，"
                ++ (if params.Name ≠ "mainnet" then "测试网" else "主网") ++ "）\n"),
              .stdout ("公钥 (压缩格式): "
                ++ hexString wif.PrivKey.PubKey.SerializeCompressed ++ "\n"),
              .stdout "地址: 不支持生成此类型地址\n"],
             none⟩) := by
  refine ⟨fun pubKey pubKeyBytes => ⟨switch_unknown _ _ _ _ h1 h2 h3 h4, ?_⟩, ?_, ?_⟩
  · rw [switch_eq]; exact switch_unknown _ _ _ _ h1 h2 h3 h4
  · intro privateKey
    simp only [generateKeyPair, NewWIF, switch_unknown _ _ _ _ h1 h2 h3 h4]
    rfl
  · intro wifStr wif hd hn
    simp only [importPrivateKey, hd, hn, switch_eq, switch_unknown _ _ _ _ h1 h2 h3 h4]
    rfl

/-- C3 at the tag `P2TR` (upper case) and the private key 153 on mainnet. -/
theorem unknown_tag_reported_witness :
    generateKeyPair "P2TR" MainNetParams (.ok ⟨153⟩)
      = ⟨[.log "警告: 无法生成 P2TR 类型的地址: 未知的地址类型: P2TR",
          .stdout "生成了新的比特币密钥对（P2TR，主网）\n",
          .stdout "私钥 (WIF格式): KwDiBf89QgGbjEhKnhXJuH7LrciVrZi3qYjgd9M7rFU8MZejxwYf\n",
          .stdout "公钥 (压缩格式): 0200e3ae1974566ca06cc516d47e0fb165a674a3dabcfca15e722f0e3450f45889\n",
          .stdout "地址: 不支持生成此类型地址\n"], none⟩ :=
  ((unknown_tag_reported "P2TR" MainNetParams (by decide) (by decide) (by decide)
    (by decide)).2.1 ⟨153⟩).trans (by decide!)

/-- C4. `main` reaches a key flow exactly when one of `-generate` / `-import` is
set: with both set it logs the usage error and exits with status 1, with neither
it prints the usage and exits with status 1 (in both cases nothing is written to
standard output and neither the entropy nor the import string is looked at);
with only `-generate` it runs `generateKeyPair`, with only a non-empty `-import`
it runs `importPrivateKey`, on the selected network. -/
theorem main_flag_gate (flags : Flags) (entropy : Except String PrivateKey) :
    (flags.generateKey = true ∧ flags.importPrivKey ≠ "" →
        main flags entropy = ⟨[.log "不能同时指定 -generate 和 -import 参数"], some 1⟩)
    ∧ (flags.generateKey = false ∧ flags.importPrivKey = "" →
        main flags entropy = ⟨[.usage], some 1⟩)
    ∧ (flags.generateKey = true ∧ flags.importPrivKey = "" →
        main flags entropy
          = (generateKeyPair flags.addressType (selectParams flags.testnet) entropy).exit)
    ∧ (flags.generateKey = false ∧ flags.importPrivKey ≠ "" →
        main flags entropy
          = (importPrivateKey flags.importPrivKey flags.addressType
              (selectParams flags.testnet)).exit) := by
  refine ⟨?_, ?_, ?_, ?_⟩
  · rintro ⟨hg, hi⟩; simp [main, hg, hi, logFatal]
  · rintro ⟨hg, hi⟩; simp [main, hg, hi]
  · rintro ⟨hg, hi⟩; simp [main, hg, hi]
  · rintro ⟨hg, hi⟩; simp [main, hg, hi]

/-- C4 at `-generate -import x`: exit status 1 and nothing on standard output. -/
theorem main_flag_gate_witness :
    main ⟨true, "x", "p2pkh", false⟩ (.ok ⟨153⟩)
      = ⟨[.log "不能同时指定 -generate 和 -import 参数"], some 1⟩ :=
  (main_flag_gate ⟨true, "x", "p2pkh", false⟩ (.ok ⟨153⟩)).1 ⟨rfl, by decide⟩

/-- C5, amended. `importPrivateKey` prints a public-key line exactly when the
WIF string decodes and its network byte is the private-key byte of the
requested parameters; it prints a public-key line and an address line exactly
when, in addition, the address derivation of the requested type returns an
address.  For `p2pkh`, `p2sh` and `p2wpkh` it always does, so for these the two
lines are printed exactly when the WIF decodes for the network; for an
unrecognized tag it never does, and the failure notice is printed in place of
the address.  If decoding fails the run is the invalid-format message and exit
status 1; if the WIF decodes for another network the run is the
network-mismatch message and exit status 1; in both cases nothing is printed.
Otherwise the function returns normally. -/
theorem import_gate (wifStr addressType : String) (params : Params) :
    ((importPrivateKey wifStr addressType params).printsPublicKey
        ↔ ∃ wif, DecodeWIF wifStr = .ok wif ∧ wif.netID = params.PrivateKeyID)
    ∧ (((importPrivateKey wifStr addressType params).printsPublicKey
          ∧ (importPrivateKey wifStr addressType params).printsAddress)
        ↔ ∃ wif, DecodeWIF wifStr = .ok wif ∧ wif.netID = params.PrivateKeyID
            ∧ ∃ address, importPrivateKey.switch addressType params wif.PrivKey.PubKey
                wif.PrivKey.PubKey.SerializeCompressed = .ok address)
    ∧ ((addressType = "p2pkh" ∨ addressType = "p2sh" ∨ addressType = "p2wpkh") →
        (((importPrivateKey wifStr addressType params).printsPublicKey
            ∧ (importPrivateKey wifStr addressType params).printsAddress)
          ↔ ∃ wif, DecodeWIF wifStr = .ok wif ∧ wif.netID = params.PrivateKeyID))
    ∧ ((addressType ≠ "p2pkh" ∧ addressType ≠ "p2sh" ∧ addressType ≠ "p2wpkh"
          ∧ addressType ≠ "p2tr") →
        ¬(importPrivateKey wifStr addressType params).printsAddress
          ∧ ∀ wif, DecodeWIF wifStr = .ok wif → wif.netID = params.PrivateKeyID →
              Event.stdout "地址: 不支持生成此类型地址\n"
                ∈ (importPrivateKey wifStr addressType params).events)
    ∧ (∀ err, DecodeWIF wifStr = .error err →
        importPrivateKey wifStr addressType params
          = ⟨[.log ("无效的WIF格式私钥: " ++ err)], some 1⟩)
    ∧ (∀ wif, DecodeWIF wifStr = .ok wif → wif.netID ≠ params.PrivateKeyID →
        importPrivateKey wifStr addressType params = ⟨[.log "私钥网络类型不匹配"], some 1⟩)
    ∧ (∀ wif, DecodeWIF wifStr = .ok wif → wif.netID = params.PrivateKeyID →
        (importPrivateKey wifStr addressType params).exitCode = none) := by
  have hfatal : ∀ err, DecodeWIF wifStr = .error err →
      importPrivateKey wifStr addressType params
        = ⟨[.log ("无效的WIF格式私钥: " ++ err)], some 1⟩ := by
    intro err he
    simp [importPrivateKey, he, logFatal]
  have hmis : ∀ wif, DecodeWIF wifStr = .ok wif → wif.netID ≠ params.PrivateKeyID →
      importPrivateKey wifStr addressType params = ⟨[.log "私钥网络类型不匹配"], some 1⟩ := by
    intro wif hd hn
    simp [importPrivateKey, hd, WIF.IsForNet, hn, logFatal]
  have hpk : (importPrivateKey wifStr addressType params).printsPublicKey
      ↔ ∃ wif, DecodeWIF wifStr = .ok wif ∧ wif.netID = params.PrivateKeyID := by
    constructor
    · rintro ⟨pk, hpk⟩
      cases hd : DecodeWIF wifStr with
      | error err => rw [hfatal err hd] at hpk; simp at hpk
      | ok wif =>
        by_cases hn : wif.netID = params.PrivateKeyID
        · exact ⟨wif, rfl, hn⟩
        · rw [hmis wif hd hn] at hpk; simp at hpk
    · rintro ⟨wif, hd, hn⟩
      refine ⟨hexString wif.PrivKey.PubKey.SerializeCompressed, ?_⟩
      rw [importPrivateKey_events _ _ _ _ hd hn]
      simp
  have hboth : ((importPrivateKey wifStr addressType params).printsPublicKey
        ∧ (importPrivateKey wifStr addressType params).printsAddress)
      ↔ ∃ wif, DecodeWIF wifStr = .ok wif ∧ wif.netID = params.PrivateKeyID
          ∧ ∃ address, importPrivateKey.switch addressType params wif.PrivKey.PubKey
              wif.PrivKey.PubKey.SerializeCompressed = .ok address := by
    constructor
    · rintro ⟨h1, h2⟩
      obtain ⟨wif, hd, hn⟩ := hpk.mp h1
      exact ⟨wif, hd, hn, (printsAddress_iff _ _ _ _ hd hn).mp h2⟩
    · rintro ⟨wif, hd, hn, ha⟩
      exact ⟨hpk.mpr ⟨wif, hd, hn⟩, (printsAddress_iff _ _ _ _ hd hn).mpr ha⟩
  refine ⟨hpk, hboth, ?_, ?_, hfatal, hmis, ?_⟩
  · intro ht
    rw [hboth]
    constructor
    · rintro ⟨wif, hd, hn, -⟩
      exact ⟨wif, hd, hn⟩
    · rintro ⟨wif, hd, hn⟩
      refine ⟨wif, hd, hn, ?_⟩
      obtain ⟨h1, h2, h3, -⟩ := switch_recognized params wif.PrivKey.PubKey
        wif.PrivKey.PubKey.SerializeCompressed
      rw [switch_eq]
      rcases ht with rfl | rfl | rfl
      · exact ⟨_, h1⟩
      · exact ⟨_, h2⟩
      · exact ⟨_, h3⟩
  · rintro ⟨t1, t2, t3, t4⟩
    constructor
    · intro hp
      cases hd : DecodeWIF wifStr with
      | error err =>
        obtain ⟨a, ha⟩ := hp
        rw [hfatal err hd] at ha; simp at ha
      | ok wif =>
        by_cases hn : wif.netID = params.PrivateKeyID
        · obtain ⟨a, ha⟩ := (printsAddress_iff _ _ _ _ hd hn).mp hp
          rw [switch_eq, switch_unknown _ _ _ _ t1 t2 t3 t4] at ha
          cases ha
        · obtain ⟨a, ha⟩ := hp
          rw [hmis wif hd hn] at ha; simp at ha
    · intro wif hd hn
      rw [importPrivateKey_events _ _ _ _ hd hn, switch_eq, switch_unknown _ _ _ _ t1 t2 t3 t4]
      simp
  · intro wif hd hn
    rw [importPrivateKey_events _ _ _ _ hd hn]

/-- C5 at the mainnet WIF of the private key 153 with `p2sh`: both lines are
printed. -/
theorem import_gate_witness :
    (importPrivateKey "KwDiBf89QgGbjEhKnhXJuH7LrciVrZi3qYjgd9M7rFU8MZejxwYf" "p2sh"
        MainNetParams).printsPublicKey
      ∧ (importPrivateKey "KwDiBf89QgGbjEhKnhXJuH7LrciVrZi3qYjgd9M7rFU8MZejxwYf" "p2sh"
        MainNetParams).printsAddress :=
  ((import_gate "KwDiBf89QgGbjEhKnhXJuH7LrciVrZi3qYjgd9M7rFU8MZejxwYf" "p2sh"
    MainNetParams).2.2.1 (Or.inr (Or.inl rfl))).mpr ⟨⟨⟨153⟩, true, 0x80⟩, by decide!, rfl⟩

/-- C5 as first stated fails: the mainnet WIF of the private key 153 decodes for
mainnet, and with the tag `P2PKH` (upper case) no address line is printed. -/
theorem import_gate_counterexample :
    ¬(((importPrivateKey "KwDiBf89QgGbjEhKnhXJuH7LrciVrZi3qYjgd9M7rFU8MZejxwYf" "P2PKH"
            MainNetParams).printsPublicKey
          ∧ (importPrivateKey "KwDiBf89QgGbjEhKnhXJuH7LrciVrZi3qYjgd9M7rFU8MZejxwYf" "P2PKH"
            MainNetParams).printsAddress)
        ↔ ∃ wif, DecodeWIF "KwDiBf89QgGbjEhKnhXJuH7LrciVrZi3qYjgd9M7rFU8MZejxwYf" = .ok wif
            ∧ wif.netID = MainNetParams.PrivateKeyID) := by
  intro h
  have hd : DecodeWIF "KwDiBf89QgGbjEhKnhXJuH7LrciVrZi3qYjgd9M7rFU8MZejxwYf"
      = .ok ⟨⟨153⟩, true, 0x80⟩ := by decide!
  obtain ⟨a, ha⟩ := (printsAddress_iff _ "P2PKH" MainNetParams _ hd rfl).mp
    (h.mpr ⟨_, hd, rfl⟩).2
  rw [switch_eq, switch_unknown _ _ _ _ (by decide) (by decide) (by decide) (by decide)] at ha
  cases ha

/-- C6. For every public key the P2SH branch of both switches builds the
22-byte redeem script `0x00 0x14 <Hash160 of the compressed key>`, the script
builder reports no error, the address is the script-hash address of the Hash160
of that script with the P2SH version byte of the network, and its string is the
Base58Check encoding of that hash under that version byte. -/
theorem p2sh_redeem_script (pubKey : PublicKey) (pubKeyBytes : Bytes) (params : Params) :
    ((NewScriptBuilder.AddOp OP_0).AddData (Hash160 pubKeyBytes)).Script
        = (0x00 :: 0x14 :: Hash160 pubKeyBytes, none)
      ∧ (0x00 :: 0x14 :: Hash160 pubKeyBytes).length = 22
      ∧ generateKeyPair.switch "p2sh" params pubKey pubKeyBytes
          = .ok (.AddressScriptHash (Hash160 (0x00 :: 0x14 :: Hash160 pubKeyBytes))
              params.ScriptHashAddrID)
      ∧ importPrivateKey.switch "p2sh" params pubKey pubKeyBytes
          = .ok (.AddressScriptHash (Hash160 (0x00 :: 0x14 :: Hash160 pubKeyBytes))
              params.ScriptHashAddrID)
      ∧ (Address.AddressScriptHash (Hash160 (0x00 :: 0x14 :: Hash160 pubKeyBytes))
            params.ScriptHashAddrID).EncodeAddress
          = Base58.CheckEncode (Hash160 (0x00 :: 0x14 :: Hash160 pubKeyBytes))
              params.ScriptHashAddrID := by
  have hs := redeemScript_eq (Hash160 pubKeyBytes) (Hash160_length _)
  refine ⟨hs, by simp [Hash160_length], ?_, ?_, rfl⟩
  · simp [generateKeyPair.switch, AddressTypeP2PKH, AddressTypeP2SH, hs, NewAddressScriptHash,
      Hash160_length]
  · simp [importPrivateKey.switch, AddressTypeP2PKH, AddressTypeP2SH, hs, NewAddressScriptHash,
      Hash160_length]

/-- C7. The generate flow and the import flow derive the address in the same
way: for every private key, address-type string and network, and every WIF
string that decodes to that key and is accepted for the network, the two
switches return the same result (address or error), and the two runs end with
the same address line and log the same warnings. -/
theorem same_derivation (k : PrivateKey) (addressType : String) (params : Params)
    (wifStr : String) (wif : WIF) (hd : DecodeWIF wifStr = .ok wif) (hk : wif.PrivKey = k)
    (hn : wif.IsForNet params = true) :
    generateKeyPair.switch addressType params k.PubKey k.PubKey.SerializeCompressed
        = importPrivateKey.switch addressType params wif.PrivKey.PubKey
            wif.PrivKey.PubKey.SerializeCompressed
      ∧ (generateKeyPair addressType params (.ok k)).addressLine
        = (importPrivateKey wifStr addressType params).addressLine
      ∧ (generateKeyPair addressType params (.ok k)).warnings
        = (importPrivateKey wifStr addressType params).warnings := by
  subst hk
  refine ⟨rfl, ?_, ?_⟩
  · simp only [Run.addressLine, generateKeyPair, NewWIF, importPrivateKey, hd, hn, switch_eq]
    simp
  · simp only [Run.warnings, generateKeyPair, NewWIF, importPrivateKey, hd, hn, switch_eq]
    simp [List.filter_cons]

/-- C7 at the private key 153, `p2wpkh`, testnet. -/
theorem same_derivation_witness :
    (generateKeyPair "p2wpkh" TestNet3Params (.ok ⟨153⟩)).addressLine
      = (importPrivateKey "cMahea7zqjxrtgAbB7LSGbcQUr1uX1ojuat9jZodMN88cJgN5CPY" "p2wpkh"
          TestNet3Params).addressLine :=
  (same_derivation ⟨153⟩ "p2wpkh" TestNet3Params
    "cMahea7zqjxrtgAbB7LSGbcQUr1uX1ojuat9jZodMN88cJgN5CPY" ⟨⟨153⟩, true, 0xef⟩
    (by decide!) rfl (by decide)).2.1

/-- C10. The run of `importPrivateKey` does not depend on the compression flag
of the WIF: two WIF strings that decode to the same key and network byte, one
flagged compressed and one not, give the same run for every address type and
network; the public key printed is the 33-byte compressed serialization. -/
theorem compression_flag_ignored (w1 w2 : String) (k : PrivateKey) (netID : Nat)
    (addressType : String) (params : Params)
    (h1 : DecodeWIF w1 = .ok ⟨k, true, netID⟩) (h2 : DecodeWIF w2 = .ok ⟨k, false, netID⟩) :
    importPrivateKey w1 addressType params = importPrivateKey w2 addressType params
      ∧ (netID = params.PrivateKeyID →
          Event.stdout ("公钥 (压缩格式): " ++ hexString k.PubKey.SerializeCompressed ++ "\n")
              ∈ (importPrivateKey w1 addressType params).events
            ∧ k.PubKey.SerializeCompressed.length = 33) := by
  refine ⟨?_, ?_⟩
  · simp [importPrivateKey, h1, h2, WIF.IsForNet]
  · intro hn
    refine ⟨?_, by simp [PublicKey.SerializeCompressed, fixedBytes_length]⟩
    simp [importPrivateKey, h1, WIF.IsForNet, hn]

/-- C10 at the compressed and the uncompressed mainnet WIF of the private key
153. -/
theorem compression_flag_ignored_witness :
    importPrivateKey "KwDiBf89QgGbjEhKnhXJuH7LrciVrZi3qYjgd9M7rFU8MZejxwYf" "p2pkh" MainNetParams
      = importPrivateKey "5HpHagT65TZzG1PH3CSu63k8DbpvD8s5ip4nEB3kEsreTsnN2UE" "p2pkh"
          MainNetParams :=
  (compression_flag_ignored "KwDiBf89QgGbjEhKnhXJuH7LrciVrZi3qYjgd9M7rFU8MZejxwYf"
    "5HpHagT65TZzG1PH3CSu63k8DbpvD8s5ip4nEB3kEsreTsnN2UE" ⟨153⟩ 0x80 "p2pkh" MainNetParams
    (by decide!) (by decide!)).1

/-! ## The Taproot branch -/

/-- The minimal big-endian encoding has 32 bytes exactly for the values from
`2^248` up to `2^256 - 1`. -/
theorem bigIntBytes_length_eq_32 (n : Nat) :
    (bigIntBytes n).length = 32 ↔ 2 ^ 248 ≤ n ∧ n < 2 ^ 256 := by
  have hb : (1 : Nat) < 256 := by norm_num
  have h248 : (2 : Nat) ^ 248 = 256 ^ 31 := by norm_num
  have h256 : (2 : Nat) ^ 256 = 256 ^ 32 := by norm_num
  rw [bigIntBytes_eq, List.length_reverse, h248, h256]
  have hlt := @Nat.lt_base_pow_length_digits 256 n hb
  constructor
  · intro hL
    have hn : n ≠ 0 := by
      rintro rfl
      simp at hL
    have hle := Nat.base_pow_length_digits_le 256 n hb hn
    rw [hL] at hlt hle
    refine ⟨?_, hlt⟩
    have : (256 : Nat) ^ 32 = 256 * 256 ^ 31 := by norm_num
    rw [this] at hle
    exact Nat.le_of_mul_le_mul_left hle (by norm_num)
  · rintro ⟨hlo, hhi⟩
    have hn : n ≠ 0 := by
      rintro rfl
      norm_num at hlo
    have hle := Nat.base_pow_length_digits_le 256 n hb hn
    have h1 : 31 < (Nat.digits 256 n).length :=
      (Nat.pow_lt_pow_iff_right hb).mp (lt_of_le_of_lt hlo hlt)
    have h2 : (Nat.digits 256 n).length < 33 := by
      apply (Nat.pow_lt_pow_iff_right hb).mp
      calc 256 ^ (Nat.digits 256 n).length ≤ 256 * n := hle
        _ < 256 * 256 ^ 32 := Nat.mul_lt_mul_of_pos_left hhi (by norm_num)
        _ = 256 ^ 33 := by norm_num
    omega

/-- The Taproot branch returns an address exactly when the x coordinate of the
public key is at least `2^248`. -/
theorem taproot_ok_iff (params : Params) (pubKey : PublicKey) (pubKeyBytes : Bytes) :
    (∃ address, generateKeyPair.switch "p2tr" params pubKey pubKeyBytes = .ok address)
      ↔ 2 ^ 248 ≤ pubKey.X ∧ pubKey.X < 2 ^ 256 := by
  rw [(switch_recognized params pubKey pubKeyBytes).2.2.2, ← bigIntBytes_length_eq_32]
  unfold NewAddressTaproot
  by_cases h : (bigIntBytes pubKey.X).length = 32
  · simp [h]
  · simp [h]

/-- C1, at the private key 153 (a key the generator can return, and the key of
the WIF `KwDiBf89QgGbjEhKnhXJuH7LrciVrZi3qYjgd9M7rFU8MZejxwYf`): its public key is a
point of the curve whose x coordinate is below `2^248`, `pubKey.X().Bytes()` has
31 bytes, not 32, and the Taproot branch of both switches ends with an error. -/
theorem taproot_program_short :
    (PrivateKey.mk 153).Valid
      ∧ (PrivateKey.mk 153).PubKey.IsOnCurve
      ∧ (PrivateKey.mk 153).PubKey.X < 2 ^ 248
      ∧ (bigIntBytes (PrivateKey.mk 153).PubKey.X).length = 31
      ∧ (∃ err, generateKeyPair.switch "p2tr" MainNetParams (PrivateKey.mk 153).PubKey
          (PrivateKey.mk 153).PubKey.SerializeCompressed = .error err)
      ∧ (∃ err, importPrivateKey.switch "p2tr" TestNet3Params (PrivateKey.mk 153).PubKey
          (PrivateKey.mk 153).PubKey.SerializeCompressed = .error err) := by
  refine ⟨by decide, by decide!, by decide!, by decide!,
    ⟨"witness program must be 32 bytes for p2tr", by decide!⟩,
    ⟨"witness program must be 32 bytes for p2tr", by decide!⟩⟩

/-- C2, at the same key: with the recognized tag `p2tr`, both flows print the
failure notice in place of an address. -/
theorem recognized_tag_fails :
    (importPrivateKey "KwDiBf89QgGbjEhKnhXJuH7LrciVrZi3qYjgd9M7rFU8MZejxwYf" "p2tr"
        MainNetParams).stdout
      = ["从私钥导入的比特币公钥（p2tr，主网）\n",
         "公钥 (压缩格式): 0200e3ae1974566ca06cc516d47e0fb165a674a3dabcfca15e722f0e3450f45889\n",
         "地址: 不支持生成此类型地址\n"]
    ∧ (generateKeyPair "p2tr" MainNetParams (.ok ⟨153⟩)).stdout
      = ["生成了新的比特币密钥对（p2tr，主网）\n",
         "私钥 (WIF格式): KwDiBf89QgGbjEhKnhXJuH7LrciVrZi3qYjgd9M7rFU8MZejxwYf\n",
         "公钥 (压缩格式): 0200e3ae1974566ca06cc516d47e0fb165a674a3dabcfca15e722f0e3450f45889\n",
         "地址: 不支持生成此类型地址\n"] := by
  exact ⟨by decide!, by decide!⟩

/-- The tags `p2pkh`, `p2sh` and `p2wpkh` never fail: for every public key and
parameters the switch returns an address. -/
theorem hash_tags_never_fail (params : Params) (pubKey : PublicKey) (pubKeyBytes : Bytes)
    (addressType : String)
    (h : addressType = "p2pkh" ∨ addressType = "p2sh" ∨ addressType = "p2wpkh") :
    (∃ address, generateKeyPair.switch addressType params pubKey pubKeyBytes = .ok address)
      ∧ (∃ address, importPrivateKey.switch addressType params pubKey pubKeyBytes
          = .ok address) := by
  obtain ⟨h1, h2, h3, -⟩ := switch_recognized params pubKey pubKeyBytes
  rw [switch_eq]
  rcases h with rfl | rfl | rfl
  · exact ⟨⟨_, h1⟩, ⟨_, h1⟩⟩
  · exact ⟨⟨_, h2⟩, ⟨_, h2⟩⟩
  · exact ⟨⟨_, h3⟩, ⟨_, h3⟩⟩

/-- The three hash-based tags at the key 153 on mainnet. -/
theorem hash_tags_never_fail_witness :
    (∃ address, generateKeyPair.switch "p2sh" MainNetParams (PrivateKey.mk 153).PubKey
        (PrivateKey.mk 153).PubKey.SerializeCompressed = .ok address)
      ∧ (∃ address, importPrivateKey.switch "p2sh" MainNetParams (PrivateKey.mk 153).PubKey
        (PrivateKey.mk 153).PubKey.SerializeCompressed = .ok address) :=
  hash_tags_never_fail MainNetParams _ _ "p2sh" (Or.inr (Or.inl rfl))

/-- The example of the specification: importing the WIF
`cVt4o7BGAig1UXywgGSmARhxMdzP5qvQsxKkSsc1XEkw3tDTQFpy` under testnet with `p2pkh`
prints this public key and this address. -/
theorem spec_example :
    (importPrivateKey "cVt4o7BGAig1UXywgGSmARhxMdzP5qvQsxKkSsc1XEkw3tDTQFpy" "p2pkh"
        TestNet3Params)
      = ⟨[.stdout "从私钥导入的比特币公钥（p2pkh，测试网）\n",
          .stdout "公钥 (压缩格式): 039b6347398505f5ec93826dc61c19f47c66c0283ee9be980e29ce325a0f4679ef\n",
          .stdout "地址: mqwpxxvfv3QbM8PU8uBx2jaNt9btQqvQNx\n"], none⟩ := by
  decide!

/-- A failure of the key generator is fatal: the message, exit status 1, and
nothing on standard output. -/
theorem entropy_failure_fatal (addressType : String) (params : Params) (err : String) :
    generateKeyPair addressType params (.error err)
      = ⟨[.log ("生成私钥失败: " ++ err)], some 1⟩ := rfl

end BtcKeygen
